import Mathlib

/-! Ethiopian date picker: the calendar conversion engine.

A shallow embedding of the two conversion implementations of the repository,

* `js/ethiopian-calendar.js`, class `EthiopianCalendar` (namespace `EthiopianCalendar`),
* `src/EthiopianDatePicker.php`, class `EthiopianDatePicker` (namespace `EthiopianDatePicker`),

together with the part of their host runtimes they call: the ECMAScript `Date`
object (namespace `JS`) and PHP's `gregoriantojd`.

Conventions of the embedding.

* Numbers are integers (`Int`).  JavaScript's and PHP's `%` is the truncated
  remainder `Int.tmod`; `Math.floor (a / b)` and PHP's `floor (a / b)` with a
  positive `b` are `a / b` on `Int`, which rounds down.
* A JavaScript number that may be `NaN` is an `Option Int`, `none` being `NaN`.
* A `Date` is its time value counted in whole days since 1970-01-01, `none`
  being the Invalid Date.  The host time zone is taken to have a constant
  offset (UTC), so local midnights are exactly one day apart and the time of
  day of a `Date` plays no part: the code reads dates only through
  `getFullYear`, `getMonth`, `getDate`, `getDay` and differences of midnights.
-/

namespace JS

/-- ECMAScript `DayFromYear(y)`: the day number of 1 January of year `y`. -/
def DayFromYear (y : Int) : Int :=
  365 * (y - 1970) + (y - 1969) / 4 - (y - 1901) / 100 + (y - 1601) / 400

/-- ECMAScript `DaysInYear(y)`. -/
def DaysInYear (y : Int) : Int :=
  if y % 4 ≠ 0 then 365
  else if y % 100 ≠ 0 then 366
  else if y % 400 ≠ 0 then 365
  else 366

/-- ECMAScript `YearFromTime`: the largest `y` with `DayFromYear y ≤ d`
(see `YearFromTime_spec` and `YearFromTime_unique`), found from the estimate
`1970 + ⌊400 d / 146097⌋`, which is off by at most one. -/
def YearFromTime (d : Int) : Int :=
  let e := 1970 + (400 * d) / 146097
  if DayFromYear (e + 1) ≤ d then e + 1
  else if DayFromYear e ≤ d then e
  else e - 1

/-- The leap-day count of year `y`: 1 when `DaysInYear y` is 366, else 0. -/
def leapOf (y : Int) : Int :=
  if DaysInYear y = 366 then 1 else 0

/-- ECMAScript `InLeapYear`, as the number 0 or 1. -/
def InLeapYear (d : Int) : Int :=
  leapOf (YearFromTime d)

/-- ECMAScript `DayWithinYear`. -/
def DayWithinYear (d : Int) : Int :=
  d - DayFromYear (YearFromTime d)

/-- Day within the year on which month `m` (0 = January) starts, `leap` being
0 or 1: the thresholds of the ECMAScript `MonthFromTime` table. -/
def monthStart (m leap : Int) : Int :=
  if m = 0 then 0
  else if m = 1 then 31
  else if m = 2 then 59 + leap
  else if m = 3 then 90 + leap
  else if m = 4 then 120 + leap
  else if m = 5 then 151 + leap
  else if m = 6 then 181 + leap
  else if m = 7 then 212 + leap
  else if m = 8 then 243 + leap
  else if m = 9 then 273 + leap
  else if m = 10 then 304 + leap
  else 334 + leap

/-- The ECMAScript `MonthFromTime` table: the month (0 = January) holding day
`n` of a year, `l` being 1 in a leap year and 0 otherwise. -/
def monthOfDay (n l : Int) : Int :=
  if n < 31 then 0
  else if n < 59 + l then 1
  else if n < 90 + l then 2
  else if n < 120 + l then 3
  else if n < 151 + l then 4
  else if n < 181 + l then 5
  else if n < 212 + l then 6
  else if n < 243 + l then 7
  else if n < 273 + l then 8
  else if n < 304 + l then 9
  else if n < 334 + l then 10
  else 11

/-- ECMAScript `MonthFromTime` (0 = January .. 11 = December). -/
def MonthFromTime (d : Int) : Int :=
  monthOfDay (DayWithinYear d) (InLeapYear d)

/-- ECMAScript `DateFromTime`: the day of the month, counted from 1. -/
def DateFromTime (d : Int) : Int :=
  DayWithinYear d - monthStart (MonthFromTime d) (InLeapYear d) + 1

/-- ECMAScript `WeekDay` (0 = Sunday); 1970-01-01 was a Thursday. -/
def WeekDay (d : Int) : Int :=
  (d + 4) % 7

/-- ECMAScript `MakeDay (year, month, date)`: months beyond 0..11 carry into the
year, and `date` is counted on from the first of the month without any check. -/
def MakeDay (year month date : Int) : Int :=
  let ym := year + month / 12
  let mn := month % 12
  DayFromYear ym + monthStart mn (leapOf ym) + date - 1

/-- ECMAScript `TimeClip` at day granularity: a time value beyond 8.64e15 ms
(100 000 000 days) from the epoch is `NaN`. -/
def TimeClip (d : Int) : Option Int :=
  if -100000000 ≤ d ∧ d ≤ 100000000 then some d else none

/-- A `Date` object at midnight: its day number, or `none` when invalid. -/
abbrev Date := Option Int

/-- The constructor `new Date(year, monthIndex, day)`: a year in 0..99 stands
for 1900 + year. -/
def mkDate (year monthIndex day : Int) : Date :=
  let yr := if 0 ≤ year ∧ year ≤ 99 then 1900 + year else year
  TimeClip (MakeDay yr monthIndex day)

/-- The method `Date.prototype.setDate(dt)`, returning the updated object. -/
def setDate (t : Date) (dt : Int) : Date :=
  match t with
  | none => none
  | some d => TimeClip (MakeDay (YearFromTime d) (MonthFromTime d) dt)

/-- The method `getFullYear()`. -/
def getFullYear (t : Date) : Option Int := t.map YearFromTime

/-- The method `getMonth()` (0 = January). -/
def getMonth (t : Date) : Option Int := t.map MonthFromTime

/-- The method `getDate()`. -/
def getDate (t : Date) : Option Int := t.map DateFromTime

/-- The method `getDay()` (0 = Sunday). -/
def getDay (t : Date) : Option Int := t.map WeekDay

/-- The comparison `a < b` of two `Date` objects: false when either is invalid. -/
def dateLt (a b : Date) : Bool :=
  match a, b with
  | some x, some y => decide (x < y)
  | _, _ => false

/-- The expression `Math.floor((a.getTime() - b.getTime()) / (1000 * 60 * 60 * 24))`
for two midnights. -/
def daysBetween (a b : Date) : Option Int :=
  match a, b with
  | some x, some y => some (x - y)
  | _, _ => none

end JS

namespace EthiopianCalendar

/-- The object returned by `gregorianToEthiopian`; `month` and `day` are
`none` when the arithmetic produced `NaN`. -/
structure EthiopianDate where
  year : Int
  month : Option Int
  day : Option Int
  weekDay : Int
  deriving DecidableEq, Repr

/-- The object returned by `validateEthiopianDate`. -/
structure ValidationResult where
  valid : Bool
  error : Option String
  deriving DecidableEq, Repr

/-- `isGregorianLeapYear(year)`. -/
def isGregorianLeapYear (year : Int) : Bool :=
  (year.tmod 4 == 0 && year.tmod 100 != 0) || year.tmod 400 == 0

/-- `isEthiopianLeapYear(year)`. -/
def isEthiopianLeapYear (year : Int) : Bool :=
  year.tmod 4 == 3

/-- `getDaysInEthiopianMonth(month, year)`; `.error` is the thrown `Error`. -/
def getDaysInEthiopianMonth (month year : Int) : Except String Int :=
  if month < 1 ∨ month > 13 then
    .error ("Invalid Ethiopian month: " ++ toString month ++ ". Must be between 1 and 13.")
  else if month = 13 then
    .ok (if isEthiopianLeapYear year then 6 else 5)
  else
    .ok 30

/-- `gregorianToEthiopian(gregorianDate)`. -/
def gregorianToEthiopian (gregorianDate : JS.Date) : Except String EthiopianDate :=
  match gregorianDate with
  | none => .error "Invalid date provided. Please provide a valid Date object."
  | some t =>
    let year := JS.YearFromTime t
    let month := JS.MonthFromTime t + 1
    let day := JS.DateFromTime t
    let ethiopianNewYear : Int := if isGregorianLeapYear year then 12 else 11
    let ethYear : Int :=
      if month < 9 ∨ (month = 9 ∧ day < ethiopianNewYear) then year - 8 else year - 7
    let newYearDate := JS.mkDate year 8 ethiopianNewYear
    let currentDate := JS.mkDate year (month - 1) day
    let daysSinceNewYear : Option Int :=
      if JS.dateLt currentDate newYearDate then
        let prevNewYearDate :=
          JS.mkDate (year - 1) 8 (if isGregorianLeapYear (year - 1) then 12 else 11)
        JS.daysBetween currentDate prevNewYearDate
      else
        JS.daysBetween currentDate newYearDate
    let ethMonth : Option Int := daysSinceNewYear.map (fun n => n / 30 + 1)
    let ethDay : Option Int := daysSinceNewYear.map (fun n => n.tmod 30 + 1)
    let pagume : Bool :=
      match ethMonth with
      | some m => decide (m > 13)
      | none => false
    .ok {
      year := ethYear
      month := if pagume then some 13 else ethMonth
      day := if pagume then daysSinceNewYear.map (fun n => n - 360 + 1) else ethDay
      weekDay := JS.WeekDay t }

/-- `ethiopianToGregorian(ethYear, ethMonth, ethDay)`; `.error` is the thrown
`Error`, `.ok none` a returned Invalid Date. -/
def ethiopianToGregorian (ethYear ethMonth ethDay : Int) : Except String JS.Date :=
  if ethMonth < 1 ∨ ethMonth > 13 then
    .error ("Invalid Ethiopian month: " ++ toString ethMonth ++ ". Must be between 1 and 13.")
  else
    match getDaysInEthiopianMonth ethMonth ethYear with
    | .error e => .error e
    | .ok maxDay =>
      if ethDay < 1 ∨ ethDay > maxDay then
        .error ("Invalid day: " ++ toString ethDay ++ ". Month " ++ toString ethMonth
          ++ " has " ++ toString maxDay ++ " days.")
      else
        let ethDayOfYear := (ethMonth - 1) * 30 + ethDay
        let gregYear := ethYear + 7
        let ethiopianNewYear : Int := if isGregorianLeapYear gregYear then 12 else 11
        let gregDayOfYear := ethDayOfYear + (if ethiopianNewYear = 12 then 256 else 257)
        let daysInGregYear : Int := if isGregorianLeapYear gregYear then 366 else 365
        let overflow : Bool := decide (gregDayOfYear > daysInGregYear)
        let gregDayOfYear := if overflow then gregDayOfYear - daysInGregYear else gregDayOfYear
        let actualGregYear := if overflow then gregYear + 1 else gregYear
        let gregDate := JS.mkDate actualGregYear 0 1
        .ok (JS.setDate gregDate gregDayOfYear)

/-- `validateEthiopianDate(year, month, day)` on numbers; `.error` would be an
`Error` thrown by the call of `getDaysInEthiopianMonth`. -/
def validateEthiopianDate (year month day : Int) : Except String ValidationResult :=
  if year < 1 then
    .ok { valid := false, error := some "Invalid year. Year must be a positive number." }
  else if month < 1 ∨ month > 13 then
    .ok { valid := false, error := some "Invalid month. Month must be between 1 and 13." }
  else
    match getDaysInEthiopianMonth month year with
    | .error e => .error e
    | .ok maxDay =>
      if day < 1 ∨ day > maxDay then
        .ok { valid := false,
              error := some ("Invalid day. Month " ++ toString month ++ " has "
                ++ toString maxDay ++ " days.") }
      else
        .ok { valid := true, error := none }

/-- The two locales of the name tables, `'am'` and `'en'`. -/
inductive Locale where
  | am
  | en
  deriving DecidableEq, Repr

/-- The table `this.monthNames`. -/
def monthNames (locale : Locale) : List String :=
  match locale with
  | .am => ["መስከረም", "ጥቅምት", "ኅዳር", "ታኅሣሥ", "ጥር", "የካቲት",
      "መጋቢት", "ሚያዝያ", "ግንቦት", "ሰኔ", "ሐምሌ", "ነሐሴ", "ጳጉሜ"]
  | .en => ["Meskerem", "Tikimt", "Hidar", "Tahsas", "Tir", "Yekatit",
      "Megabit", "Miazia", "Ginbot", "Sene", "Hamle", "Nehase", "Pagume"]

/-- The table `this.dayNames`. -/
def dayNames (locale : Locale) : List String :=
  match locale with
  | .am => ["እሁድ", "ሰኞ", "ማክሰኞ", "ረቡዕ", "ሐሙስ", "ዓርብ", "ቅዳሜ"]
  | .en => ["Sunday", "Monday", "Tuesday", "Wednesday", "Thursday", "Friday", "Saturday"]

/-- The `name` object of a holiday entry. -/
structure HolidayName where
  am : String
  en : String
  deriving DecidableEq, Repr

/-- An entry of the table `this.holidays`. -/
structure Holiday where
  month : Int
  day : Int
  name : HolidayName
  deriving DecidableEq, Repr

/-- The table `this.holidays`. -/
def holidays : List Holiday :=
  [ { month := 1, day := 1, name := { am := "እንቁጣጣሽ", en := "Enkutatash (New Year)" } },
    { month := 1, day := 17, name := { am := "መስቀል", en := "Meskel (Finding of True Cross)" } },
    { month := 4, day := 29, name := { am := "ገና", en := "Genna (Christmas)" } },
    { month := 5, day := 11, name := { am := "ጥምቀት", en := "Timkat (Epiphany)" } },
    { month := 9, day := 23, name := { am := "ስቅለት", en := "Siklet (Good Friday)" } },
    { month := 9, day := 25, name := { am := "ፋሲካ", en := "Fasika (Easter)" } } ]

/-- A value spliced into a template literal: `undefined` (here `none`) prints
as the word `undefined`. -/
def templateString (v : Option String) : String :=
  match v with
  | some s => s
  | none => "undefined"

/-- `getMonthName(month, locale)`; the result is `none` where the array lookup
gives `undefined`. -/
def getMonthName (month : Int) (locale : Locale) : Except String (Option String) :=
  if month < 1 ∨ month > 13 then
    .error ("Invalid month: " ++ toString month)
  else
    .ok ((monthNames locale)[(month - 1).toNat]?)

/-- `getDayName(dayIndex, locale)`; `dayIndex` is `none` when it is `NaN`, for
which both comparisons of the guard are false and the lookup gives `undefined`. -/
def getDayName (dayIndex : Option Int) (locale : Locale) : Except String (Option String) :=
  match dayIndex with
  | none => .ok none
  | some i =>
    if i < 0 ∨ i > 6 then
      .error ("Invalid day index: " ++ toString i)
    else
      .ok ((dayNames locale)[i.toNat]?)

/-- `isHoliday(month, day)`: the first entry of the table with that month and
day, `none` where `find` gives `undefined`. -/
def isHoliday (month day : Int) : Option Holiday :=
  holidays.find? (fun h => h.month == month && h.day == day)

/-- A non-null element of the array returned by `getMonthDays`. -/
structure MonthGridCell where
  day : Int
  weekDay : Option Int
  gregorianDate : JS.Date
  isHoliday : Bool
  holidayName : Option HolidayName
  deriving DecidableEq, Repr

/-- The object pushed for one day by the second loop of `getMonthDays`. -/
def monthDayCell (year month day : Int) : Except String (Option MonthGridCell) :=
  match ethiopianToGregorian year month day with
  | .error e => .error e
  | .ok gregDate =>
    let holiday := isHoliday month day
    .ok (some {
      day := day
      weekDay := JS.getDay gregDate
      gregorianDate := gregDate
      isHoliday := holiday.isSome
      holidayName := holiday.map (fun h => h.name) })

/-- `getMonthDays(year, month)`: `none` is a `null` element.  The first loop
pushes a `null` for each `i` from 0 below `firstWeekDay` (none when that is
`NaN`), the second a cell for each day from 1 to `daysInMonth`. -/
def getMonthDays (year month : Int) : Except String (List (Option MonthGridCell)) :=
  match getDaysInEthiopianMonth month year with
  | .error e => .error e
  | .ok daysInMonth =>
    match ethiopianToGregorian year month 1 with
    | .error e => .error e
    | .ok firstDay =>
      let padding : List (Option MonthGridCell) :=
        match JS.getDay firstDay with
        | some firstWeekDay => List.replicate firstWeekDay.toNat none
        | none => []
      match (List.range daysInMonth.toNat).mapM
          (fun (i : Nat) => monthDayCell year month ((i : Int) + 1)) with
      | .error e => .error e
      | .ok cells => .ok (padding ++ cells)

/-- `formatDate(year, month, day, locale, includeWeekDay)`. -/
def formatDate (year month day : Int) (locale : Locale) (includeWeekDay : Bool) :
    Except String String :=
  match getMonthName month locale with
  | .error e => .error e
  | .ok monthName =>
    match ethiopianToGregorian year month day with
    | .error e => .error e
    | .ok gregDate =>
      if includeWeekDay then
        match getDayName (JS.getDay gregDate) locale with
        | .error e => .error e
        | .ok dayName =>
          if locale = .am then
            .ok (templateString dayName ++ "፣ " ++ toString day ++ " "
              ++ templateString monthName ++ " " ++ toString year)
          else
            .ok (templateString dayName ++ ", " ++ templateString monthName ++ " "
              ++ toString day ++ ", " ++ toString year)
      else if locale = .am then
        .ok (toString day ++ " " ++ templateString monthName ++ " " ++ toString year)
      else
        .ok (templateString monthName ++ " " ++ toString day ++ ", " ++ toString year)

/-- The variable `daysSinceNewYear` of `gregorianToEthiopian`, for a valid `Date`
with day number `t`: the difference to the new-year `Date` of the year of `t`,
or of the year before when `currentDate < newYearDate`; `none` is `NaN`. -/
def daysSinceNewYear (t : Int) : Option Int :=
  let year := JS.YearFromTime t
  let month := JS.MonthFromTime t + 1
  let day := JS.DateFromTime t
  let ethiopianNewYear : Int := if isGregorianLeapYear year then 12 else 11
  let newYearDate := JS.mkDate year 8 ethiopianNewYear
  let currentDate := JS.mkDate year (month - 1) day
  if JS.dateLt currentDate newYearDate then
    let prevNewYearDate :=
      JS.mkDate (year - 1) 8 (if isGregorianLeapYear (year - 1) then 12 else 11)
    JS.daysBetween currentDate prevNewYearDate
  else
    JS.daysBetween currentDate newYearDate

/-- The variable `actualGregYear` of `ethiopianToGregorian` after the
"Handle year overflow" step. -/
def actualGregYear (ethYear ethMonth ethDay : Int) : Int :=
  let ethDayOfYear := (ethMonth - 1) * 30 + ethDay
  let gregYear := ethYear + 7
  let ethiopianNewYear : Int := if isGregorianLeapYear gregYear then 12 else 11
  let gregDayOfYear := ethDayOfYear + (if ethiopianNewYear = 12 then 256 else 257)
  let daysInGregYear : Int := if isGregorianLeapYear gregYear then 366 else 365
  if gregDayOfYear > daysInGregYear then gregYear + 1 else gregYear

/-- The variable `gregDayOfYear` of `ethiopianToGregorian` after the
"Handle year overflow" step: the value handed to `setDate`. -/
def gregDayOfYear (ethYear ethMonth ethDay : Int) : Int :=
  let ethDayOfYear := (ethMonth - 1) * 30 + ethDay
  let gregYear := ethYear + 7
  let ethiopianNewYear : Int := if isGregorianLeapYear gregYear then 12 else 11
  let gregDayOfYear := ethDayOfYear + (if ethiopianNewYear = 12 then 256 else 257)
  let daysInGregYear : Int := if isGregorianLeapYear gregYear then 366 else 365
  if gregDayOfYear > daysInGregYear then gregDayOfYear - daysInGregYear else gregDayOfYear

end EthiopianCalendar

namespace EthiopianDatePicker

/-- PHP's `gregoriantojd($month, $day, $year)` (calendar extension,
`GregorianToSdn`): the Julian day number, 0 for a date it rejects.  C's `/` and
`%` truncate. -/
def gregoriantojd (inputMonth inputDay inputYear : Int) : Int :=
  if inputYear = 0 ∨ inputYear < -4714 ∨ inputMonth ≤ 0 ∨ inputMonth > 12
      ∨ inputDay ≤ 0 ∨ inputDay > 31 then 0
  else if inputYear = -4714 ∧ (inputMonth < 11 ∨ (inputMonth = 11 ∧ inputDay < 25)) then 0
  else
    let year0 := if inputYear < 0 then inputYear + 4801 else inputYear + 4800
    let month := if inputMonth > 2 then inputMonth - 3 else inputMonth + 9
    let year := if inputMonth > 2 then year0 else year0 - 1
    ((year.tdiv 100) * 146097).tdiv 4 + ((year.tmod 100) * 1461).tdiv 4
      + (month * 153 + 2).tdiv 5 + inputDay - 32045

/-- `EthiopianDatePicker::isLeapYear($year)`. -/
def isLeapYear (year : Int) : Bool :=
  year.tmod 4 == 3

/-- `EthiopianDatePicker::gregorianToEthiopian($year, $month, $day)`, the
returned array as a list `[year, month, day]` of its numeric values. -/
def gregorianToEthiopian (year month day : Int) : List Int :=
  let newYear := year - 8
  let newYear := if month < 9 then newYear - 1 else newYear
  let gregorianDays := gregoriantojd month day year
  let ethiopianNewYear := gregoriantojd 9 1 (newYear + 8)
  let daysSinceNewYear := gregorianDays - ethiopianNewYear
  let negative : Bool := decide (daysSinceNewYear < 0)
  let newYear := if negative then newYear - 1 else newYear
  let ethiopianNewYear := if negative then gregoriantojd 9 1 (newYear + 8) else ethiopianNewYear
  let daysSinceNewYear := if negative then gregorianDays - ethiopianNewYear else daysSinceNewYear
  let ethiopianYear := newYear
  let ethiopianMonth := daysSinceNewYear / 30 + 1
  let ethiopianDay := daysSinceNewYear.tmod 30 + 1
  if ethiopianMonth > 13 then
    [ethiopianYear, 13, min ethiopianDay (if isLeapYear ethiopianYear then 6 else 5)]
  else
    [ethiopianYear, ethiopianMonth, ethiopianDay]

/-- The variable `$daysSinceNewYear` of `gregorianToEthiopian` as first
computed, before the `< 0` test. -/
def daysSinceNewYear (year month day : Int) : Int :=
  let newYear := year - 8
  let newYear := if month < 9 then newYear - 1 else newYear
  gregoriantojd month day year - gregoriantojd 9 1 (newYear + 8)

/-- PHP's `checkdate($month, $day, $year)`: a calendar date of the years
1..32767, leap years taken into account. -/
def checkdate (month day year : Int) : Bool :=
  decide (1 ≤ year ∧ year ≤ 32767 ∧ 1 ≤ month ∧ month ≤ 12 ∧ 1 ≤ day
    ∧ day ≤ (if month = 2 then
        (if (year % 4 = 0 ∧ year % 100 ≠ 0) ∨ year % 400 = 0 then 29 else 28)
      else if month = 4 ∨ month = 6 ∨ month = 9 ∨ month = 11 then 30
      else 31))

/-- PHP's `SdnToGregorian` (calendar extension): the year, month and day of a
Julian day number, all 0 for a number it rejects.  C's `/` and `%` truncate. -/
def SdnToGregorian (sdn : Int) : Int × Int × Int :=
  if sdn ≤ 0 ∨ sdn > ((9223372036854775807 : Int) - 4 * 32045).tdiv 4 then (0, 0, 0)
  else
    let temp := (sdn + 32045) * 4 - 1
    let century := temp.tdiv 146097
    let temp := ((temp.tmod 146097).tdiv 4) * 4 + 3
    let year := century * 100 + temp.tdiv 1461
    let dayOfYear := (temp.tmod 1461).tdiv 4 + 1
    let temp := dayOfYear * 5 - 3
    let month := temp.tdiv 153
    let day := (temp.tmod 153).tdiv 5 + 1
    let year := if month < 10 then year else year + 1
    let month := if month < 10 then month + 3 else month - 9
    let year := year - 4800
    let year := if year ≤ 0 then year - 1 else year
    (year, month, day)

/-- PHP's `jdtogregorian($julianday)`: the string `month/day/year`. -/
def jdtogregorian (julianday : Int) : String :=
  match SdnToGregorian julianday with
  | (year, month, day) => toString month ++ "/" ++ toString day ++ "/" ++ toString year

/-- The loop of `explode`: `acc` holds the characters of the current piece in
reverse. -/
def explodeAux (delimiter : Char) : List Char → List Char → List String
  | [], acc => [String.mk acc.reverse]
  | c :: cs, acc =>
    if c = delimiter then String.mk acc.reverse :: explodeAux delimiter cs []
    else explodeAux delimiter cs (c :: acc)

/-- PHP's `explode($delimiter, $string)` for a delimiter of one character. -/
def explode (delimiter : Char) (string : String) : List String :=
  explodeAux delimiter string.data []

/-- `EthiopianDatePicker::ethiopianToGregorian($year, $month, $day)`: the
array of strings `explode` returns.  `$gregorianYear` is computed and never
used. -/
def ethiopianToGregorian (year month day : Int) : List String :=
  let ethiopianDays := (year - 1) * 365 + (year - 1) / 4 + (month - 1) * 30 + (day - 1)
  let gregorianDays := ethiopianDays + 78
  let gregorianDate := jdtogregorian (gregorianDays + 1721425)
  explode '/' gregorianDate

/-- `EthiopianDatePicker::getAmharicMonths()`: the array with keys 1..13. -/
def getAmharicMonths : List (Int × String) :=
  [(1, "መስከረም"), (2, "ጥቅምት"), (3, "ኅዳር"), (4, "ታኅሣሥ"), (5, "ጥር"), (6, "የካቲት"),
    (7, "መጋቢት"), (8, "ሚያዝያ"), (9, "ግንቦት"), (10, "ሰኔ"), (11, "ሐምሌ"), (12, "ነሐሴ"),
    (13, "ጳጉሜን")]

/-- `EthiopianDatePicker::getEnglishMonths()`: the array with keys 1..13. -/
def getEnglishMonths : List (Int × String) :=
  [(1, "Meskerem"), (2, "Tikimt"), (3, "Hidar"), (4, "Tahsas"), (5, "Ter"), (6, "Yekatit"),
    (7, "Megabit"), (8, "Miazia"), (9, "Ginbot"), (10, "Sene"), (11, "Hamle"),
    (12, "Nehasse"), (13, "Pagume")]

/-- `EthiopianDatePicker::formatDate($date, $language, $format)` for a date
array `[$year, $month, $day]`. -/
def formatDate (date : Int × Int × Int) (language format : String) : String :=
  match date with
  | (year, month, day) =>
    let months := if language = "amharic" then getAmharicMonths else getEnglishMonths
    let monthName := (months.lookup month).getD ""
    if format = "long" then
      toString day ++ " " ++ monthName ++ " " ++ toString year
    else
      toString year ++ "-" ++ toString month ++ "-" ++ toString day

end EthiopianDatePicker

namespace EthiopianTimePicker

/-- The options of `EthiopianTimePicker` that the time arithmetic reads. -/
structure Options where
  twelveHour : Bool
  useEthiopianTime : Bool
deriving DecidableEq, Repr

/-- The state fields `hours`, `minutes` and `period` of a picker. -/
structure State where
  hours : Int
  minutes : Int
  period : String
deriving DecidableEq, Repr

/-- The field `gregorian` of the object handed to `onChange`. -/
structure GregorianTime where
  hours : Int
  minutes : Int
deriving DecidableEq, Repr

/-- The object `confirm` hands to `options.onChange`. -/
structure ChangeEvent where
  ethiopian : State
  gregorian : GregorianTime
  formatted : String
deriving DecidableEq, Repr

/-- JavaScript's `padStart(targetLength, padString)` for a pad string of one
character. -/
def padStart (s : String) (targetLength : Nat) (padString : Char) : String :=
  String.mk (List.replicate (targetLength - s.length) padString) ++ s

/-- `EthiopianTimePicker.confirm()`: the object passed to `options.onChange`,
computed from the state of the picker.  JavaScript's `%` truncates. -/
def confirm (options : Options) (picker : State) : ChangeEvent :=
  let timeStr := padStart (toString picker.hours) 2 '0' ++ ":"
    ++ padStart (toString picker.minutes) 2 '0' ++ " "
    ++ (if options.twelveHour then picker.period else "")
  let gregHours := picker.hours
  let gregHours :=
    if options.useEthiopianTime then
      let isNight : Bool := decide (picker.period = "ማታ")
      let gregHours := picker.hours.tmod 12 + 6
      let gregHours := if isNight then gregHours + 12 else gregHours
      gregHours.tmod 24
    else if options.twelveHour then
      let gregHours :=
        if picker.period = "PM" ∧ picker.hours < 12 then gregHours + 12 else gregHours
      if picker.period = "AM" ∧ picker.hours = 12 then 0 else gregHours
    else gregHours
  { ethiopian := { hours := picker.hours, minutes := picker.minutes, period := picker.period }
    gregorian := { hours := gregHours, minutes := picker.minutes }
    formatted := timeStr }

/-- `EthiopianTimePicker.parseInputValue()` on an empty input: the state set
from the hour `gHour` and the minute `gMin` of the current time (`setPeriod`
stores the period).  JavaScript's `%` truncates; `Math.floor(gMin / 5)` is the
flooring division. -/
def parseInputValue (options : Options) (gHour gMin : Int) : State :=
  if options.useEthiopianTime then
    let hours := (gHour - 6 + 24).tmod 12
    let hours := if hours = 0 then 12 else hours
    let minutes := gMin / 5 * 5
    { hours := hours, minutes := minutes
      period := if gHour ≥ 6 ∧ gHour < 18 then "ቀን" else "ማታ" }
  else
    let hours := if gHour.tmod 12 = 0 then 12 else gHour.tmod 12
    { hours := hours, minutes := gMin
      period := if gHour ≥ 12 then "PM" else "AM" }

end EthiopianTimePicker

deriving instance DecidableEq for Except

/-! ## The calendar of the `Date` object -/

namespace JS

theorem DayFromYear_succ (y : Int) : DayFromYear (y + 1) = DayFromYear y + DaysInYear y := by
  unfold DayFromYear DaysInYear
  split_ifs <;> omega

theorem DaysInYear_pos (y : Int) : DaysInYear y = 365 ∨ DaysInYear y = 366 := by
  unfold DaysInYear
  split_ifs <;> simp

theorem DayFromYear_lower (y : Int) : 146097 * (y - 1970) - 506 ≤ 400 * DayFromYear y := by
  unfold DayFromYear; omega

theorem DayFromYear_upper (y : Int) : 400 * DayFromYear y ≤ 146097 * (y - 1970) + 589 := by
  unfold DayFromYear; omega

theorem YearFromTime_spec (d : Int) :
    DayFromYear (YearFromTime d) ≤ d ∧ d < DayFromYear (YearFromTime d + 1) := by
  unfold YearFromTime
  simp only []
  have h1 := DayFromYear_lower (1970 + 400 * d / 146097 + 1 + 1)
  have h2 := DayFromYear_upper (1970 + 400 * d / 146097 - 1)
  split_ifs with ha hb
  · exact ⟨ha, by omega⟩
  · exact ⟨hb, by omega⟩
  · refine ⟨by omega, ?_⟩
    have : 1970 + 400 * d / 146097 - 1 + 1 = 1970 + 400 * d / 146097 := by omega
    rw [this]; omega

theorem DayFromYear_strictMono : StrictMono DayFromYear := by
  apply strictMono_int_of_lt_succ
  intro n
  have h1 := DayFromYear_succ n
  have h2 := DaysInYear_pos n
  omega

theorem YearFromTime_unique (d y : Int) (h1 : DayFromYear y ≤ d)
    (h2 : d < DayFromYear (y + 1)) : YearFromTime d = y := by
  obtain ⟨s1, s2⟩ := YearFromTime_spec d
  have m := DayFromYear_strictMono
  by_contra hne
  rcases lt_or_gt_of_ne hne with h | h
  · have h3 : YearFromTime d + 1 ≤ y := h
    have := m.monotone h3
    omega
  · have h3 : y + 1 ≤ YearFromTime d := h
    have := m.monotone h3
    omega

theorem YearFromTime_add (y n : Int) (h0 : 0 ≤ n) (h1 : n < DaysInYear y) :
    YearFromTime (DayFromYear y + n) = y := by
  apply YearFromTime_unique
  · omega
  · rw [DayFromYear_succ]; omega

theorem DayWithinYear_add (y n : Int) (h0 : 0 ≤ n) (h1 : n < DaysInYear y) :
    DayWithinYear (DayFromYear y + n) = n := by
  unfold DayWithinYear
  rw [YearFromTime_add y n h0 h1]; omega

theorem leapOf_cases (y : Int) :
    (leapOf y = 0 ∨ leapOf y = 1) ∧ DaysInYear y = 365 + leapOf y := by
  have h := DaysInYear_pos y
  unfold leapOf
  rcases h with h | h <;> simp [h]

theorem InLeapYear_add (y n : Int) (h0 : 0 ≤ n) (h1 : n < DaysInYear y) :
    InLeapYear (DayFromYear y + n) = leapOf y := by
  unfold InLeapYear
  rw [YearFromTime_add y n h0 h1]

theorem DayWithinYear_bounds (d : Int) :
    0 ≤ DayWithinYear d ∧ DayWithinYear d < DaysInYear (YearFromTime d) := by
  obtain ⟨s1, s2⟩ := YearFromTime_spec d
  rw [DayFromYear_succ] at s2
  unfold DayWithinYear
  omega

end JS

namespace EthiopianCalendar

theorem isGregorianLeapYear_iff (y : Int) :
    isGregorianLeapYear y = true ↔ JS.DaysInYear y = 366 := by
  have e4 : y.tmod 4 = 0 ↔ y % 4 = 0 := by
    rw [← Int.dvd_iff_tmod_eq_zero, Int.dvd_iff_emod_eq_zero]
  have e100 : y.tmod 100 = 0 ↔ y % 100 = 0 := by
    rw [← Int.dvd_iff_tmod_eq_zero, Int.dvd_iff_emod_eq_zero]
  have e400 : y.tmod 400 = 0 ↔ y % 400 = 0 := by
    rw [← Int.dvd_iff_tmod_eq_zero, Int.dvd_iff_emod_eq_zero]
  unfold isGregorianLeapYear JS.DaysInYear
  simp only [Bool.or_eq_true, Bool.and_eq_true, beq_iff_eq, bne_iff_ne, ne_eq, e4, e100, e400]
  split_ifs <;> simp_all
  omega

end EthiopianCalendar

namespace JS

theorem monthStart_vals (l : Int) :
    monthStart 0 l = 0 ∧ monthStart 1 l = 31 ∧ monthStart 2 l = 59 + l ∧ monthStart 3 l = 90 + l
      ∧ monthStart 4 l = 120 + l ∧ monthStart 5 l = 151 + l ∧ monthStart 6 l = 181 + l
      ∧ monthStart 7 l = 212 + l ∧ monthStart 8 l = 243 + l ∧ monthStart 9 l = 273 + l
      ∧ monthStart 10 l = 304 + l ∧ monthStart 11 l = 334 + l := by
  unfold monthStart
  norm_num

theorem monthOfDay_cases (n l : Int) (h0 : 0 ≤ n) (h1 : n < 365 + l) :
    (monthOfDay n l = 0 ∧ 0 ≤ n ∧ n < 31)
    ∨ (monthOfDay n l = 1 ∧ 31 ≤ n ∧ n < 59 + l)
    ∨ (monthOfDay n l = 2 ∧ 59 + l ≤ n ∧ n < 90 + l)
    ∨ (monthOfDay n l = 3 ∧ 90 + l ≤ n ∧ n < 120 + l)
    ∨ (monthOfDay n l = 4 ∧ 120 + l ≤ n ∧ n < 151 + l)
    ∨ (monthOfDay n l = 5 ∧ 151 + l ≤ n ∧ n < 181 + l)
    ∨ (monthOfDay n l = 6 ∧ 181 + l ≤ n ∧ n < 212 + l)
    ∨ (monthOfDay n l = 7 ∧ 212 + l ≤ n ∧ n < 243 + l)
    ∨ (monthOfDay n l = 8 ∧ 243 + l ≤ n ∧ n < 273 + l)
    ∨ (monthOfDay n l = 9 ∧ 273 + l ≤ n ∧ n < 304 + l)
    ∨ (monthOfDay n l = 10 ∧ 304 + l ≤ n ∧ n < 334 + l)
    ∨ (monthOfDay n l = 11 ∧ 334 + l ≤ n ∧ n < 365 + l) := by
  unfold monthOfDay
  by_cases c0 : n < 31
  · rw [if_pos c0]
    left; omega
  by_cases c1 : n < 59 + l
  · rw [if_neg c0, if_pos c1]
    right; left; omega
  by_cases c2 : n < 90 + l
  · rw [if_neg c0, if_neg c1, if_pos c2]
    right; right; left; omega
  by_cases c3 : n < 120 + l
  · rw [if_neg c0, if_neg c1, if_neg c2, if_pos c3]
    right; right; right; left; omega
  by_cases c4 : n < 151 + l
  · rw [if_neg c0, if_neg c1, if_neg c2, if_neg c3, if_pos c4]
    right; right; right; right; left; omega
  by_cases c5 : n < 181 + l
  · rw [if_neg c0, if_neg c1, if_neg c2, if_neg c3, if_neg c4, if_pos c5]
    right; right; right; right; right; left; omega
  by_cases c6 : n < 212 + l
  · rw [if_neg c0, if_neg c1, if_neg c2, if_neg c3, if_neg c4, if_neg c5, if_pos c6]
    right; right; right; right; right; right; left; omega
  by_cases c7 : n < 243 + l
  · rw [if_neg c0, if_neg c1, if_neg c2, if_neg c3, if_neg c4, if_neg c5, if_neg c6, if_pos c7]
    right; right; right; right; right; right; right; left; omega
  by_cases c8 : n < 273 + l
  · rw [if_neg c0, if_neg c1, if_neg c2, if_neg c3, if_neg c4, if_neg c5, if_neg c6, if_neg c7, if_pos c8]
    right; right; right; right; right; right; right; right; left; omega
  by_cases c9 : n < 304 + l
  · rw [if_neg c0, if_neg c1, if_neg c2, if_neg c3, if_neg c4, if_neg c5, if_neg c6, if_neg c7, if_neg c8, if_pos c9]
    right; right; right; right; right; right; right; right; right; left; omega
  by_cases c10 : n < 334 + l
  · rw [if_neg c0, if_neg c1, if_neg c2, if_neg c3, if_neg c4, if_neg c5, if_neg c6, if_neg c7, if_neg c8, if_neg c9, if_pos c10]
    right; right; right; right; right; right; right; right; right; right; left; omega
  rw [if_neg c0, if_neg c1, if_neg c2, if_neg c3, if_neg c4, if_neg c5, if_neg c6, if_neg c7, if_neg c8, if_neg c9, if_neg c10]
  right; right; right; right; right; right; right; right; right; right; right; omega

/-- The ECMAScript tables of `MonthFromTime` and `DateFromTime`, row by row. -/
theorem month_date_cases (d : Int) :
    (MonthFromTime d = 0 ∧ DateFromTime d = DayWithinYear d + 1
        ∧ 0 ≤ DayWithinYear d ∧ DayWithinYear d < 31)
    ∨ (MonthFromTime d = 1 ∧ DateFromTime d = DayWithinYear d - 30
        ∧ 31 ≤ DayWithinYear d ∧ DayWithinYear d < 59 + InLeapYear d)
    ∨ (MonthFromTime d = 2 ∧ DateFromTime d = DayWithinYear d - 58 - InLeapYear d
        ∧ 59 + InLeapYear d ≤ DayWithinYear d ∧ DayWithinYear d < 90 + InLeapYear d)
    ∨ (MonthFromTime d = 3 ∧ DateFromTime d = DayWithinYear d - 89 - InLeapYear d
        ∧ 90 + InLeapYear d ≤ DayWithinYear d ∧ DayWithinYear d < 120 + InLeapYear d)
    ∨ (MonthFromTime d = 4 ∧ DateFromTime d = DayWithinYear d - 119 - InLeapYear d
        ∧ 120 + InLeapYear d ≤ DayWithinYear d ∧ DayWithinYear d < 151 + InLeapYear d)
    ∨ (MonthFromTime d = 5 ∧ DateFromTime d = DayWithinYear d - 150 - InLeapYear d
        ∧ 151 + InLeapYear d ≤ DayWithinYear d ∧ DayWithinYear d < 181 + InLeapYear d)
    ∨ (MonthFromTime d = 6 ∧ DateFromTime d = DayWithinYear d - 180 - InLeapYear d
        ∧ 181 + InLeapYear d ≤ DayWithinYear d ∧ DayWithinYear d < 212 + InLeapYear d)
    ∨ (MonthFromTime d = 7 ∧ DateFromTime d = DayWithinYear d - 211 - InLeapYear d
        ∧ 212 + InLeapYear d ≤ DayWithinYear d ∧ DayWithinYear d < 243 + InLeapYear d)
    ∨ (MonthFromTime d = 8 ∧ DateFromTime d = DayWithinYear d - 242 - InLeapYear d
        ∧ 243 + InLeapYear d ≤ DayWithinYear d ∧ DayWithinYear d < 273 + InLeapYear d)
    ∨ (MonthFromTime d = 9 ∧ DateFromTime d = DayWithinYear d - 272 - InLeapYear d
        ∧ 273 + InLeapYear d ≤ DayWithinYear d ∧ DayWithinYear d < 304 + InLeapYear d)
    ∨ (MonthFromTime d = 10 ∧ DateFromTime d = DayWithinYear d - 303 - InLeapYear d
        ∧ 304 + InLeapYear d ≤ DayWithinYear d ∧ DayWithinYear d < 334 + InLeapYear d)
    ∨ (MonthFromTime d = 11 ∧ DateFromTime d = DayWithinYear d - 333 - InLeapYear d
        ∧ 334 + InLeapYear d ≤ DayWithinYear d ∧ DayWithinYear d < 365 + InLeapYear d) := by
  obtain ⟨h0, h1⟩ := DayWithinYear_bounds d
  obtain ⟨_, hlen⟩ := leapOf_cases (YearFromTime d)
  have hL : InLeapYear d = leapOf (YearFromTime d) := rfl
  rw [hlen, ← hL] at h1
  have hc := monthOfDay_cases (DayWithinYear d) (InLeapYear d) h0 h1
  obtain ⟨v0, v1, v2, v3, v4, v5, v6, v7, v8, v9, v10, v11⟩ := monthStart_vals (InLeapYear d)
  have hM : MonthFromTime d = monthOfDay (DayWithinYear d) (InLeapYear d) := rfl
  have hD : DateFromTime d
      = DayWithinYear d - monthStart (MonthFromTime d) (InLeapYear d) + 1 := rfl
  rw [hD, hM]
  rcases hc with h | h | h | h | h | h | h | h | h | h | h | h
  · obtain ⟨e, a, b⟩ := h
    rw [e, v0]
    left; exact ⟨rfl, by omega, a, b⟩
  · obtain ⟨e, a, b⟩ := h
    rw [e, v1]
    right; left; exact ⟨rfl, by omega, a, b⟩
  · obtain ⟨e, a, b⟩ := h
    rw [e, v2]
    right; right; left; exact ⟨rfl, by omega, a, b⟩
  · obtain ⟨e, a, b⟩ := h
    rw [e, v3]
    right; right; right; left; exact ⟨rfl, by omega, a, b⟩
  · obtain ⟨e, a, b⟩ := h
    rw [e, v4]
    right; right; right; right; left; exact ⟨rfl, by omega, a, b⟩
  · obtain ⟨e, a, b⟩ := h
    rw [e, v5]
    right; right; right; right; right; left; exact ⟨rfl, by omega, a, b⟩
  · obtain ⟨e, a, b⟩ := h
    rw [e, v6]
    right; right; right; right; right; right; left; exact ⟨rfl, by omega, a, b⟩
  · obtain ⟨e, a, b⟩ := h
    rw [e, v7]
    right; right; right; right; right; right; right; left; exact ⟨rfl, by omega, a, b⟩
  · obtain ⟨e, a, b⟩ := h
    rw [e, v8]
    right; right; right; right; right; right; right; right; left; exact ⟨rfl, by omega, a, b⟩
  · obtain ⟨e, a, b⟩ := h
    rw [e, v9]
    right; right; right; right; right; right; right; right; right; left; exact ⟨rfl, by omega, a, b⟩
  · obtain ⟨e, a, b⟩ := h
    rw [e, v10]
    right; right; right; right; right; right; right; right; right; right; left; exact ⟨rfl, by omega, a, b⟩
  · obtain ⟨e, a, b⟩ := h
    rw [e, v11]
    right; right; right; right; right; right; right; right; right; right; right; exact ⟨rfl, by omega, a, b⟩

end JS

namespace JS

theorem MakeDay_september (y dt : Int) :
    MakeDay y 8 dt = DayFromYear y + (242 + leapOf y + dt) := by
  have h1 : (8 : Int) / 12 = 0 := by norm_num
  have h2 : (8 : Int) % 12 = 8 := by norm_num
  have h3 := (monthStart_vals (leapOf y)).2.2.2.2.2.2.2.2.1
  unfold MakeDay
  simp only [h1, h2, h3, add_zero]
  omega

theorem TimeClip_eq_some (d : Int) (h1 : -100000000 ≤ d) (h2 : d ≤ 100000000) :
    TimeClip d = some d := by
  unfold TimeClip
  rw [if_pos ⟨h1, h2⟩]

theorem TimeClip_some_iff (d : Int) :
    TimeClip d = some d ↔ -100000000 ≤ d ∧ d ≤ 100000000 := by
  unfold TimeClip
  split_ifs with h
  · simp [h]
  · simp [h]

/-- A year, the 1900s included, whose days near September are valid `Date`s. -/
theorem mkDate_september (y dt : Int) (h1 : 1 ≤ dt) (h2 : dt ≤ 30)
    (hv : TimeClip (MakeDay y 8 dt) = some (MakeDay y 8 dt)) :
    ∃ v, mkDate y 8 dt = some v := by
  unfold mkDate
  simp only []
  split_ifs with h
  · refine ⟨_, TimeClip_eq_some _ ?_ ?_⟩
    all_goals
      rw [MakeDay_september]
      have a := DayFromYear_lower (1900 + y)
      have b := DayFromYear_upper (1900 + y)
      have c := (leapOf_cases (1900 + y)).1
      omega
  · exact ⟨_, hv⟩

theorem dateLt_self (a : Date) : dateLt a a = false := by
  cases a <;> simp [dateLt]

theorem Day_eq (t : Int) : t = DayFromYear (YearFromTime t) + DayWithinYear t := by
  unfold DayWithinYear
  omega

/-- Fields of the day `MakeDay y 8 dt` for a day `dt` of September. -/
theorem september_fields (y dt : Int) (h1 : 1 ≤ dt) (h2 : dt ≤ 30) :
    YearFromTime (MakeDay y 8 dt) = y ∧ MonthFromTime (MakeDay y 8 dt) = 8
      ∧ DateFromTime (MakeDay y 8 dt) = dt := by
  obtain ⟨hl01, hlen⟩ := leapOf_cases y
  have hn0 : 0 ≤ 242 + leapOf y + dt := by omega
  have hn1 : 242 + leapOf y + dt < DaysInYear y := by omega
  have hy := YearFromTime_add y _ hn0 hn1
  have hw := DayWithinYear_add y _ hn0 hn1
  have hl := InLeapYear_add y _ hn0 hn1
  rw [MakeDay_september]
  have hc := month_date_cases (DayFromYear y + (242 + leapOf y + dt))
  rw [hw, hl] at hc
  refine ⟨hy, ?_⟩
  generalize MonthFromTime (DayFromYear y + (242 + leapOf y + dt)) = M at hc ⊢
  generalize DateFromTime (DayFromYear y + (242 + leapOf y + dt)) = D at hc ⊢
  generalize leapOf y = l at hc hl01
  refine ⟨?_, ?_⟩
  · rcases hc with h | h | h | h | h | h | h | h | h | h | h | h <;> omega
  · rcases hc with h | h | h | h | h | h | h | h | h | h | h | h <;> omega

end JS

/-! ## `gregorianToEthiopian` around the new-year anchor -/

namespace EthiopianCalendar
open JS

theorem gte_year_cond (t off : Int) (h1 : 1 ≤ off) (h2 : off ≤ 30) :
    (MonthFromTime t + 1 < 9 ∨ (MonthFromTime t + 1 = 9 ∧ DateFromTime t < off))
      ↔ t < MakeDay (YearFromTime t) 8 off := by
  rw [MakeDay_september]
  have hc := month_date_cases t
  have ht := Day_eq t
  have hl : InLeapYear t = leapOf (YearFromTime t) := rfl
  have hl01 := (leapOf_cases (YearFromTime t)).1
  rw [← hl] at hl01 ⊢
  generalize MonthFromTime t = M at hc ⊢
  generalize DateFromTime t = D at hc ⊢
  generalize DayWithinYear t = n at hc ht
  generalize InLeapYear t = l at hc hl01 ⊢
  generalize DayFromYear (YearFromTime t) = J at ht ⊢
  rcases hc with h | h | h | h | h | h | h | h | h | h | h | h <;> omega

end EthiopianCalendar

/-! ## `ethiopianToGregorian`: acceptance and the returned `Date` -/

namespace JS

theorem MakeDay_january (y dt : Int) : MakeDay y 0 dt = DayFromYear y + dt - 1 := by
  have h1 : (0 : Int) / 12 = 0 := by norm_num
  have h2 : (0 : Int) % 12 = 0 := by norm_num
  have h3 := (monthStart_vals (leapOf y)).1
  unfold MakeDay
  simp only [h1, h2, h3, add_zero]

theorem january_first_fields (y : Int) :
    YearFromTime (DayFromYear y) = y ∧ MonthFromTime (DayFromYear y) = 0 := by
  obtain ⟨hl01, hlen⟩ := leapOf_cases y
  have hy := YearFromTime_add y 0 (le_refl 0) (by omega)
  have hw := DayWithinYear_add y 0 (le_refl 0) (by omega)
  rw [add_zero] at hy hw
  refine ⟨hy, ?_⟩
  unfold MonthFromTime monthOfDay
  rw [hw, if_pos (by norm_num)]

/-- The `Date` built by `new Date(year, 0, 1)` followed by `setDate(n)`. -/
theorem setDate_mkDate_january (y n : Int)
    (hv : TimeClip (DayFromYear (if 0 ≤ y ∧ y ≤ 99 then 1900 + y else y))
      = some (DayFromYear (if 0 ≤ y ∧ y ≤ 99 then 1900 + y else y))) :
    setDate (mkDate y 0 1) n
      = TimeClip (DayFromYear (if 0 ≤ y ∧ y ≤ 99 then 1900 + y else y) + n - 1) := by
  unfold mkDate
  simp only []
  generalize (if 0 ≤ y ∧ y ≤ 99 then 1900 + y else y) = yr at hv ⊢
  have e : MakeDay yr 0 1 = DayFromYear yr := by rw [MakeDay_january]; omega
  obtain ⟨f1, f2⟩ := january_first_fields yr
  rw [e, hv]
  unfold setDate
  simp only []
  rw [f1, f2, MakeDay_january]

end JS

namespace EthiopianCalendar
open JS

theorem getDaysInEthiopianMonth_ok (month year : Int) (h1 : 1 ≤ month) (h2 : month ≤ 13) :
    getDaysInEthiopianMonth month year
      = .ok (if month = 13 then (if isEthiopianLeapYear year then 6 else 5) else 30) := by
  unfold getDaysInEthiopianMonth
  rw [if_neg (by omega)]
  split_ifs <;> rfl

theorem getDaysInEthiopianMonth_bounds (month year : Int) :
    5 ≤ (if month = 13 then (if isEthiopianLeapYear year then (6 : Int) else 5) else 30)
      ∧ (if month = 13 then (if isEthiopianLeapYear year then (6 : Int) else 5) else 30) ≤ 30 := by
  split_ifs <;> simp

/-- What `ethiopianToGregorian` returns on a month and day it accepts. -/
theorem ethiopianToGregorian_ok (year month day : Int) (h1 : 1 ≤ month) (h2 : month ≤ 13)
    (h3 : 1 ≤ day)
    (h4 : day ≤ (if month = 13 then (if isEthiopianLeapYear year then 6 else 5) else 30)) :
    ethiopianToGregorian year month day
      = .ok (setDate
          (mkDate (if (month - 1) * 30 + day + (if isGregorianLeapYear (year + 7) then 256 else 257)
                > (if isGregorianLeapYear (year + 7) then 366 else 365)
              then year + 7 + 1 else year + 7) 0 1)
          (if (month - 1) * 30 + day + (if isGregorianLeapYear (year + 7) then 256 else 257)
                > (if isGregorianLeapYear (year + 7) then 366 else 365)
            then (month - 1) * 30 + day + (if isGregorianLeapYear (year + 7) then 256 else 257)
                - (if isGregorianLeapYear (year + 7) then 366 else 365)
            else (month - 1) * 30 + day
                + (if isGregorianLeapYear (year + 7) then 256 else 257))) := by
  unfold ethiopianToGregorian
  rw [if_neg (by omega), getDaysInEthiopianMonth_ok month year h1 h2]
  dsimp only
  rw [if_neg (by omega)]
  by_cases hl : isGregorianLeapYear (year + 7) = true
  · simp [hl]
  · simp [hl]

theorem ethiopianToGregorian_error (year month day : Int)
    (h : ¬ (1 ≤ month ∧ month ≤ 13 ∧ 1 ≤ day
      ∧ day ≤ (if month = 13 then (if isEthiopianLeapYear year then 6 else 5) else 30))) :
    ∃ e, ethiopianToGregorian year month day = .error e := by
  unfold ethiopianToGregorian
  by_cases hm : month < 1 ∨ month > 13
  · rw [if_pos hm]; exact ⟨_, rfl⟩
  · rw [if_neg hm, getDaysInEthiopianMonth_ok month year (by omega) (by omega)]
    dsimp only
    rw [if_pos (by omega)]
    exact ⟨_, rfl⟩

end EthiopianCalendar

namespace EthiopianCalendar
open JS

/-- For Ethiopian years 1..275000 the returned `Date` is a valid one. -/
theorem ethiopianToGregorian_valid (year month day : Int) (hy1 : 1 ≤ year)
    (hy2 : year ≤ 275000) (h1 : 1 ≤ month) (h2 : month ≤ 13) (h3 : 1 ≤ day)
    (h4 : day ≤ (if month = 13 then (if isEthiopianLeapYear year then 6 else 5) else 30)) :
    ∃ t, ethiopianToGregorian year month day = .ok (some t) := by
  rw [ethiopianToGregorian_ok year month day h1 h2 h3 h4]
  have hb := getDaysInEthiopianMonth_bounds month year
  have hc : (256 : Int) ≤ (if isGregorianLeapYear (year + 7) then 256 else 257)
      ∧ (if isGregorianLeapYear (year + 7) then 256 else 257) ≤ (257 : Int) := by
    split_ifs <;> simp
  have hd : (365 : Int) ≤ (if isGregorianLeapYear (year + 7) then 366 else 365)
      ∧ (if isGregorianLeapYear (year + 7) then 366 else 365) ≤ (366 : Int) := by
    split_ifs <;> simp
  generalize (if month = 13 then (if isEthiopianLeapYear year then (6 : Int) else 5) else 30)
    = mx at h4 hb
  generalize (if isGregorianLeapYear (year + 7) then (256 : Int) else 257) = c at hc ⊢
  generalize (if isGregorianLeapYear (year + 7) then (366 : Int) else 365) = len at hd ⊢
  have hY : 8 ≤ (if (month - 1) * 30 + day + c > len then year + 7 + 1 else year + 7)
      ∧ (if (month - 1) * 30 + day + c > len then year + 7 + 1 else year + 7) ≤ 275008 := by
    split_ifs <;> omega
  have hN : 1 ≤ (if (month - 1) * 30 + day + c > len then (month - 1) * 30 + day + c - len
        else (month - 1) * 30 + day + c)
      ∧ (if (month - 1) * 30 + day + c > len then (month - 1) * 30 + day + c - len
        else (month - 1) * 30 + day + c) ≤ 366 := by
    split_ifs <;> omega
  generalize (if (month - 1) * 30 + day + c > len then year + 7 + 1 else year + 7) = Y at hY ⊢
  generalize (if (month - 1) * 30 + day + c > len then (month - 1) * 30 + day + c - len
        else (month - 1) * 30 + day + c) = n at hN ⊢
  have hyr : 100 ≤ (if 0 ≤ Y ∧ Y ≤ 99 then 1900 + Y else Y)
      ∧ (if 0 ≤ Y ∧ Y ≤ 99 then 1900 + Y else Y) ≤ 275008 := by
    split_ifs <;> omega
  have hs := setDate_mkDate_january Y n
  generalize (if 0 ≤ Y ∧ Y ≤ 99 then 1900 + Y else Y) = yr at hyr hs
  have a := DayFromYear_lower yr
  have b := DayFromYear_upper yr
  rw [hs (TimeClip_eq_some _ (by omega) (by omega)), TimeClip_eq_some _ (by omega) (by omega)]
  exact ⟨_, rfl⟩

end EthiopianCalendar

/-! ## PHP: Julian day numbers -/


namespace EthiopianDatePicker

/-- The Julian day number formula on a date `gregoriantojd` accepts. -/
theorem gregoriantojd_eq (m d y : Int) (hy : 1 ≤ y) (hm1 : 1 ≤ m) (hm2 : m ≤ 12)
    (hd1 : 1 ≤ d) (hd2 : d ≤ 31) :
    gregoriantojd m d y
      = (((if m > 2 then y + 4800 else y + 4800 - 1).tdiv 100) * 146097).tdiv 4
        + (((if m > 2 then y + 4800 else y + 4800 - 1).tmod 100) * 1461).tdiv 4
        + ((if m > 2 then m - 3 else m + 9) * 153 + 2).tdiv 5 + d - 32045 := by
  have c1 : ¬ (y = 0 ∨ y < -4714 ∨ m ≤ 0 ∨ m > 12 ∨ d ≤ 0 ∨ d > 31) := by omega
  have c2 : ¬ (y = -4714 ∧ (m < 11 ∨ (m = 11 ∧ d < 25))) := by omega
  have c3 : ¬ (y < 0) := by omega
  unfold gregoriantojd
  rw [if_neg c1, if_neg c2]
  dsimp only
  rw [if_neg c3]

theorem gregoriantojd_add_day (m d k y : Int) (hy : 1 ≤ y) (hm1 : 1 ≤ m) (hm2 : m ≤ 12)
    (hd : 1 ≤ d) (hk : 0 ≤ k) (hdk : d + k ≤ 31) :
    gregoriantojd m (d + k) y = gregoriantojd m d y + k := by
  rw [gregoriantojd_eq m (d + k) y hy hm1 hm2 (by omega) hdk,
    gregoriantojd_eq m d y hy hm1 hm2 hd (by omega)]
  omega

end EthiopianDatePicker

/-! ## The claims -/

namespace EthiopianCalendar
open JS

/-- C1 (code defect): the round trip Ethiopian → Gregorian → Ethiopian fails at
the valid date (2016, 1, 1): `ethiopianToGregorian` returns 15 September 2023,
which `gregorianToEthiopian` maps to (2016, 1, 5). -/
theorem roundTrip_ethiopian_2016_1_1 :
    validateEthiopianDate 2016 1 1 = .ok { valid := true, error := none }
    ∧ ethiopianToGregorian 2016 1 1 = .ok (mkDate 2023 8 15)
    ∧ gregorianToEthiopian (mkDate 2023 8 15)
        = .ok { year := 2016, month := some 1, day := some 5, weekDay := 5 } := by
  decide

/-- C2 (code defect): the round trip Gregorian → Ethiopian → Gregorian fails at
11 September 2023, which comes back as 15 September 2023, and at
11 September 2024, whose image (2016, 13, 7) `ethiopianToGregorian` rejects. -/
theorem roundTrip_gregorian_2023_09_11 :
    gregorianToEthiopian (mkDate 2023 8 11)
        = .ok { year := 2016, month := some 1, day := some 1, weekDay := 1 }
    ∧ ethiopianToGregorian 2016 1 1 = .ok (mkDate 2023 8 15)
    ∧ mkDate 2023 8 15 ≠ mkDate 2023 8 11
    ∧ gregorianToEthiopian (mkDate 2024 8 11)
        = .ok { year := 2016, month := some 13, day := some 7, weekDay := 3 }
    ∧ ethiopianToGregorian 2016 13 7 = .error "Invalid day: 7. Month 13 has 5 days." := by
  decide

/-- C3 (code defect): `gregorianToEthiopian` of 11 September 2024 returns
(2016, 13, 7), a day beyond the 5 days `getDaysInEthiopianMonth` gives month 13
of 2016, and `validateEthiopianDate` rejects it. -/
theorem gregorianToEthiopian_2024_09_11_invalid :
    gregorianToEthiopian (mkDate 2024 8 11)
        = .ok { year := 2016, month := some 13, day := some 7, weekDay := 3 }
    ∧ getDaysInEthiopianMonth 13 2016 = .ok 5
    ∧ validateEthiopianDate 2016 13 7
        = .ok { valid := false, error := some "Invalid day. Month 13 has 5 days." } := by
  decide

/-- C4: `gregorianToEthiopian` of the Gregorian date 2023-09-11 returns year
2016, month 1, day 1 (and weekday 1, a Monday). -/
theorem gregorianToEthiopian_2023_09_11 :
    getFullYear (mkDate 2023 8 11) = some 2023
    ∧ getMonth (mkDate 2023 8 11) = some 8
    ∧ getDate (mkDate 2023 8 11) = some 11
    ∧ gregorianToEthiopian (mkDate 2023 8 11)
        = .ok { year := 2016, month := some 1, day := some 1, weekDay := 1 } := by
  decide

end EthiopianCalendar

namespace EthiopianDatePicker

/-- C5 (code defect): the PHP `gregorianToEthiopian` maps September 11 of
every year `y ≥ 1` to `[y - 8, 1, 11]`, not to the new year `[y - 7, 1, 1]` its
test expects: it anchors the Ethiopian year on September 1 and on `y - 8`. -/
theorem php_gregorianToEthiopian_sept11 (y : Int) (h1 : 1 ≤ y) (_h2 : y ≤ 2147483647) :
    gregorianToEthiopian y 9 11 = [y - 8, 1, 11] := by
  have e : y - 8 + 8 = y := by omega
  have hj := gregoriantojd_add_day 9 1 10 y h1 (by norm_num) (by norm_num) (by norm_num)
    (by norm_num) (by norm_num)
  have e11 : (1 : Int) + 10 = 11 := by norm_num
  rw [e11] at hj
  unfold gregorianToEthiopian
  simp only [e, hj]
  norm_num
  decide

/-- The test's case of C5: `gregorianToEthiopian(2023, 9, 11)` is `[2015, 1, 11]`. -/
theorem php_gregorianToEthiopian_sept11_witness :
    (1 : Int) ≤ 2023 ∧ (2023 : Int) ≤ 2147483647
      ∧ gregorianToEthiopian 2023 9 11 = [2015, 1, 11] :=
  ⟨by decide, by decide, php_gregorianToEthiopian_sept11 2023 (by decide) (by decide)⟩

end EthiopianDatePicker

namespace EthiopianCalendar
open JS

/-- C6: for a valid `Date` `t` lying in Gregorian year `y`, the day
`MakeDay y 8 off`, with `off` = 12 when `isGregorianLeapYear y` and 11 otherwise,
is September `off` of year `y`; `gregorianToEthiopian` returns Ethiopian year
`y - 8` when `t` is before that day and `y - 7` when `t` is on or after it, and
on that day itself it returns year `y - 7`, month 1, day 1. -/
theorem gregorianToEthiopian_newYear_split (y t : Int) (ht : TimeClip t = some t)
    (hy : YearFromTime t = y) :
    (YearFromTime (MakeDay y 8 (if isGregorianLeapYear y then 12 else 11)) = y
      ∧ MonthFromTime (MakeDay y 8 (if isGregorianLeapYear y then 12 else 11)) + 1 = 9
      ∧ DateFromTime (MakeDay y 8 (if isGregorianLeapYear y then 12 else 11))
          = (if isGregorianLeapYear y then 12 else 11))
    ∧ ∃ r, gregorianToEthiopian (some t) = .ok r
        ∧ r.year = (if t < MakeDay y 8 (if isGregorianLeapYear y then 12 else 11)
            then y - 8 else y - 7)
        ∧ (t = MakeDay y 8 (if isGregorianLeapYear y then 12 else 11) →
            r.year = y - 7 ∧ r.month = some 1 ∧ r.day = some 1) := by
  have hoff : (11 : Int) ≤ (if isGregorianLeapYear y then 12 else 11)
      ∧ (if isGregorianLeapYear y then 12 else 11) ≤ (12 : Int) := by
    split_ifs <;> simp
  generalize hoffe : (if isGregorianLeapYear y then (12 : Int) else 11) = off at hoff ⊢
  obtain ⟨f1, f2, f3⟩ := september_fields y off (by omega) (by omega)
  refine ⟨⟨f1, by omega, f3⟩, _, rfl, ?_, ?_⟩
  · dsimp only
    rw [hy, hoffe, if_congr (hy ▸ gte_year_cond t off (by omega) (by omega)) rfl rfl]
  · intro hA
    subst hA
    dsimp only
    rw [f1, f2, f3, hoffe]
    have e8 : (8 : Int) + 1 - 1 = 8 := by norm_num
    obtain ⟨v, hv⟩ := mkDate_september y off (by omega) (by omega) ht
    rw [e8, hv, dateLt_self]
    simp [daysBetween]

/-- The case 11 September 2023 (day 19611) of C6. -/
theorem gregorianToEthiopian_newYear_split_witness :
    TimeClip 19611 = some 19611 ∧ YearFromTime 19611 = 2023
      ∧ ∃ r, gregorianToEthiopian (some 19611) = .ok r
          ∧ r.year = 2016 ∧ r.month = some 1 ∧ r.day = some 1 := by
  obtain ⟨_, r, h1, _, h3⟩ :=
    gregorianToEthiopian_newYear_split 2023 19611 (by decide) (by decide)
  obtain ⟨a, b, c⟩ := h3 (by decide)
  exact ⟨by decide, by decide, r, h1, a, b, c⟩

/-- C7 (code defect): 2024 is a Gregorian leap year, yet `gregorianToEthiopian`
of 12 September 2023 returns month 1, day 2, and of 11 September 2024 (2025 is
not a leap year) month 13, day 7: the new year is placed by the leap test of the
current year, not of the coming one. -/
theorem gregorianToEthiopian_2023_09_12 :
    isGregorianLeapYear (2023 + 1) = true
    ∧ gregorianToEthiopian (mkDate 2023 8 12)
        = .ok { year := 2016, month := some 1, day := some 2, weekDay := 2 }
    ∧ isGregorianLeapYear (2024 + 1) = false
    ∧ gregorianToEthiopian (mkDate 2024 8 11)
        = .ok { year := 2016, month := some 13, day := some 7, weekDay := 3 } := by
  decide

/-- C8, as stated, fails at (0, 1, 1): `validateEthiopianDate` reports the
year error while `ethiopianToGregorian` throws nothing and returns a `Date`. -/
theorem ethiopianToGregorian_year_zero :
    validateEthiopianDate 0 1 1
        = .ok { valid := false, error := some "Invalid year. Year must be a positive number." }
    ∧ ethiopianToGregorian 0 1 1 = .ok (mkDate 1907 8 15)
    ∧ mkDate 1907 8 15 = some (-22754) := by
  decide

/-- C8, as amended: `ethiopianToGregorian` throws exactly when the month is
outside 1..13 or the day is outside 1..`getDaysInEthiopianMonth`, and returns a
`Date` object otherwise, whatever the year; `validateEthiopianDate` reports
valid exactly when in addition `year ≥ 1`.  So the two agree for `year ≥ 1`,
and for years 1..275000 the returned `Date` is a valid one. -/
theorem ethiopianToGregorian_throws_iff (year month day : Int) :
    ((∃ e, ethiopianToGregorian year month day = .error e) ↔
      ¬ (1 ≤ month ∧ month ≤ 13 ∧ 1 ≤ day
        ∧ day ≤ (if month = 13 then (if isEthiopianLeapYear year then 6 else 5) else 30)))
    ∧ ((∃ t, ethiopianToGregorian year month day = .ok t) ↔
      (1 ≤ month ∧ month ≤ 13 ∧ 1 ≤ day
        ∧ day ≤ (if month = 13 then (if isEthiopianLeapYear year then 6 else 5) else 30)))
    ∧ (validateEthiopianDate year month day = .ok { valid := true, error := none } ↔
      (1 ≤ year ∧ 1 ≤ month ∧ month ≤ 13 ∧ 1 ≤ day
        ∧ day ≤ (if month = 13 then (if isEthiopianLeapYear year then 6 else 5) else 30)))
    ∧ (1 ≤ year → year ≤ 275000 →
        validateEthiopianDate year month day = .ok { valid := true, error := none } →
        ∃ t, ethiopianToGregorian year month day = .ok (some t)) := by
  have key : validateEthiopianDate year month day = .ok { valid := true, error := none } ↔
      (1 ≤ year ∧ 1 ≤ month ∧ month ≤ 13 ∧ 1 ≤ day
        ∧ day ≤ (if month = 13 then (if isEthiopianLeapYear year then 6 else 5) else 30)) := by
    unfold validateEthiopianDate
    by_cases hy : year < 1
    · rw [if_pos hy]
      constructor
      · intro h; cases h
      · intro h; omega
    · rw [if_neg hy]
      by_cases hm : month < 1 ∨ month > 13
      · rw [if_pos hm]
        constructor
        · intro h; cases h
        · intro h; omega
      · rw [if_neg hm, getDaysInEthiopianMonth_ok month year (by omega) (by omega)]
        dsimp only
        by_cases hd : day < 1 ∨ day > (if month = 13 then (if isEthiopianLeapYear year then 6 else 5) else 30)
        · rw [if_pos hd]
          constructor
          · intro h; cases h
          · intro h; omega
        · rw [if_neg hd]
          constructor
          · intro _; omega
          · intro _; rfl
  refine ⟨⟨?_, ?_⟩, ⟨?_, ?_⟩, key, ?_⟩
  · rintro ⟨e, he⟩ hv
    rw [ethiopianToGregorian_ok year month day hv.1 hv.2.1 hv.2.2.1 hv.2.2.2] at he
    cases he
  · exact ethiopianToGregorian_error year month day
  · rintro ⟨t, ht⟩
    by_contra hv
    obtain ⟨e, he⟩ := ethiopianToGregorian_error year month day hv
    rw [he] at ht
    cases ht
  · intro hv
    exact ⟨_, ethiopianToGregorian_ok year month day hv.1 hv.2.1 hv.2.2.1 hv.2.2.2⟩
  · intro hy1 hy2 hv
    obtain ⟨_, a, b, c, d⟩ := key.mp hv
    exact ethiopianToGregorian_valid year month day hy1 hy2 a b c d

/-- The case (2016, 1, 1) of C8: accepted by both, and a valid `Date` comes back. -/
theorem ethiopianToGregorian_throws_iff_witness :
    (1 : Int) ≤ 2016 ∧ (2016 : Int) ≤ 275000
      ∧ validateEthiopianDate 2016 1 1 = .ok { valid := true, error := none }
      ∧ ∃ t, ethiopianToGregorian 2016 1 1 = .ok (some t) :=
  ⟨by decide, by decide, by decide,
    (ethiopianToGregorian_throws_iff 2016 1 1).2.2.2 (by decide) (by decide) (by decide)⟩

/-- C9: `validateEthiopianDate` never throws and applies its rules in order:
the year error when `year < 1`, otherwise the month error when `month` is
outside 1..13, otherwise the day error naming `getDaysInEthiopianMonth` as the
maximum when `day` is outside 1..maximum, otherwise valid; hence it reports
valid exactly when `year ≥ 1`, `1 ≤ month ≤ 13` and `1 ≤ day ≤` maximum. -/
theorem validateEthiopianDate_rules (year month day : Int) :
    validateEthiopianDate year month day
      = .ok (
        if year < 1 then
          { valid := false, error := some "Invalid year. Year must be a positive number." }
        else if month < 1 ∨ month > 13 then
          { valid := false, error := some "Invalid month. Month must be between 1 and 13." }
        else if day < 1
            ∨ day > (if month = 13 then (if isEthiopianLeapYear year then 6 else 5) else 30) then
          { valid := false,
            error := some ("Invalid day. Month " ++ toString month ++ " has "
              ++ toString (if month = 13 then (if isEthiopianLeapYear year then (6 : Int) else 5)
                else 30) ++ " days.") }
        else { valid := true, error := none })
    ∧ (1 ≤ month ∧ month ≤ 13 → getDaysInEthiopianMonth month year
        = .ok (if month = 13 then (if isEthiopianLeapYear year then 6 else 5) else 30))
    ∧ ((∃ r, validateEthiopianDate year month day = .ok r ∧ r.valid = true) ↔
        (1 ≤ year ∧ 1 ≤ month ∧ month ≤ 13 ∧ 1 ≤ day
          ∧ day ≤ (if month = 13 then (if isEthiopianLeapYear year then 6 else 5) else 30))) := by
  have key : validateEthiopianDate year month day
      = .ok (
        if year < 1 then
          { valid := false, error := some "Invalid year. Year must be a positive number." }
        else if month < 1 ∨ month > 13 then
          { valid := false, error := some "Invalid month. Month must be between 1 and 13." }
        else if day < 1
            ∨ day > (if month = 13 then (if isEthiopianLeapYear year then 6 else 5) else 30) then
          { valid := false,
            error := some ("Invalid day. Month " ++ toString month ++ " has "
              ++ toString (if month = 13 then (if isEthiopianLeapYear year then (6 : Int) else 5)
                else 30) ++ " days.") }
        else { valid := true, error := none }) := by
    unfold validateEthiopianDate
    by_cases hy : year < 1
    · rw [if_pos hy, if_pos hy]
    · rw [if_neg hy, if_neg hy]
      by_cases hm : month < 1 ∨ month > 13
      · rw [if_pos hm, if_pos hm]
      · rw [if_neg hm, if_neg hm, getDaysInEthiopianMonth_ok month year (by omega) (by omega)]
        dsimp only
        by_cases hd : day < 1
            ∨ day > (if month = 13 then (if isEthiopianLeapYear year then 6 else 5) else 30)
        · rw [if_pos hd, if_pos hd]
        · rw [if_neg hd, if_neg hd]
  refine ⟨key, fun h => getDaysInEthiopianMonth_ok month year h.1 h.2, ?_⟩
  rw [key]
  constructor
  · rintro ⟨r, hr, hv⟩
    injection hr with hr
    subst hr
    by_cases hy : year < 1
    · rw [if_pos hy] at hv; cases hv
    · rw [if_neg hy] at hv
      by_cases hm : month < 1 ∨ month > 13
      · rw [if_pos hm] at hv; cases hv
      · rw [if_neg hm] at hv
        by_cases hd : day < 1
            ∨ day > (if month = 13 then (if isEthiopianLeapYear year then 6 else 5) else 30)
        · rw [if_pos hd] at hv; cases hv
        · omega
  · intro h
    refine ⟨_, rfl, ?_⟩
    rw [if_neg (by omega), if_neg (by omega), if_neg (by omega)]

/-- The case (2015, 13, 6) of C9: all three rules pass, so it is valid. -/
theorem validateEthiopianDate_rules_witness :
    ∃ r, validateEthiopianDate 2015 13 6 = .ok r ∧ r.valid = true :=
  (validateEthiopianDate_rules 2015 13 6).2.2.mpr (by decide)

/-- C10, as stated, fails: `validateEthiopianDate(2016, 13, 6)` reports the day
error, month 13 of the non-leap year 2016 having 5 days. -/
theorem validateEthiopianDate_2016_13_6 :
    validateEthiopianDate 2016 13 6
      = .ok { valid := false, error := some "Invalid day. Month 13 has 5 days." } := by
  decide

/-- C10, as amended: `validateEthiopianDate(2015, 13, 6)` succeeds, 2015 being
an Ethiopian leap year, and in 2016, which is not one, day 5 of month 13 is the
last that succeeds. -/
theorem validateEthiopianDate_pagume_boundary :
    isEthiopianLeapYear 2015 = true
    ∧ validateEthiopianDate 2015 13 6 = .ok { valid := true, error := none }
    ∧ isEthiopianLeapYear 2016 = false
    ∧ validateEthiopianDate 2016 13 5 = .ok { valid := true, error := none }
    ∧ (∀ r, validateEthiopianDate 2016 13 6 = .ok r → r.valid = false) := by
  refine ⟨by decide, by decide, by decide, by decide, ?_⟩
  intro r h
  have e : validateEthiopianDate 2016 13 6
      = .ok { valid := false, error := some "Invalid day. Month 13 has 5 days." } := by
    decide
  rw [e] at h
  injection h with h
  rw [← h]

end EthiopianCalendar

/-! ## The month grid and the presentation layer: auxiliary facts -/

namespace JS

theorem WeekDay_bounds (d : Int) : 0 ≤ WeekDay d ∧ WeekDay d ≤ 6 := by
  unfold WeekDay
  omega

theorem WeekDay_add (d k : Int) : WeekDay (d + k) = (WeekDay d + k) % 7 := by
  unfold WeekDay
  omega

/-- Years 1..99 have the leap days of the years 1901..1999 they are mapped to. -/
theorem DaysInYear_century (y : Int) (h1 : 1 ≤ y) (h2 : y ≤ 99) :
    DaysInYear (1900 + y) = DaysInYear y := by
  unfold DaysInYear
  split_ifs <;> omega

end JS

namespace EthiopianCalendar
open JS

/-- The day number of the `Date` returned for Ethiopian years 1..275000: the
day of the year `g`, counted in Gregorian year `year + 7`, or after one
subtraction in `year + 8`, the year being read as `new Date` reads it. -/
theorem ethiopianToGregorian_dayNumber (year month day : Int) (hy1 : 1 ≤ year)
    (hy2 : year ≤ 275000) (h1 : 1 ≤ month) (h2 : month ≤ 13) (h3 : 1 ≤ day)
    (h4 : day ≤ (if month = 13 then (if isEthiopianLeapYear year then 6 else 5) else 30)) :
    ∃ c len : Int,
      ((isGregorianLeapYear (year + 7) = true ∧ c = 256 ∧ len = 366)
        ∨ (isGregorianLeapYear (year + 7) = false ∧ c = 257 ∧ len = 365))
      ∧ (((month - 1) * 30 + day + c ≤ len
          ∧ ethiopianToGregorian year month day
            = .ok (some (DayFromYear (if 0 ≤ year + 7 ∧ year + 7 ≤ 99
                then 1900 + (year + 7) else year + 7)
              + ((month - 1) * 30 + day + c) - 1)))
        ∨ (len < (month - 1) * 30 + day + c
          ∧ ethiopianToGregorian year month day
            = .ok (some (DayFromYear (if 0 ≤ year + 7 + 1 ∧ year + 7 + 1 ≤ 99
                then 1900 + (year + 7 + 1) else year + 7 + 1)
              + ((month - 1) * 30 + day + c - len) - 1)))) := by
  rw [ethiopianToGregorian_ok year month day h1 h2 h3 h4]
  have hb := getDaysInEthiopianMonth_bounds month year
  generalize (if month = 13 then (if isEthiopianLeapYear year then (6 : Int) else 5) else 30)
    = mx at h4 hb
  have hcl : ((isGregorianLeapYear (year + 7) = true
        ∧ (if isGregorianLeapYear (year + 7) then (256 : Int) else 257) = 256
        ∧ (if isGregorianLeapYear (year + 7) then (366 : Int) else 365) = 366)
      ∨ (isGregorianLeapYear (year + 7) = false
        ∧ (if isGregorianLeapYear (year + 7) then (256 : Int) else 257) = 257
        ∧ (if isGregorianLeapYear (year + 7) then (366 : Int) else 365) = 365)) := by
    by_cases hl : isGregorianLeapYear (year + 7) = true
    · left; simp [hl]
    · right; simp [hl]
  refine ⟨_, _, hcl, ?_⟩
  generalize (if isGregorianLeapYear (year + 7) then (256 : Int) else 257) = c at hcl ⊢
  generalize (if isGregorianLeapYear (year + 7) then (366 : Int) else 365) = len at hcl ⊢
  have hc : 256 ≤ c ∧ c ≤ 257 ∧ 365 ≤ len ∧ len ≤ 366 := by omega
  clear hcl
  by_cases ho : (month - 1) * 30 + day + c > len
  · right
    refine ⟨by omega, ?_⟩
    rw [if_pos ho, if_pos ho]
    have hs := setDate_mkDate_january (year + 7 + 1) ((month - 1) * 30 + day + c - len)
    have hyr : 100 ≤ (if 0 ≤ year + 7 + 1 ∧ year + 7 + 1 ≤ 99 then 1900 + (year + 7 + 1)
          else year + 7 + 1)
        ∧ (if 0 ≤ year + 7 + 1 ∧ year + 7 + 1 ≤ 99 then 1900 + (year + 7 + 1)
          else year + 7 + 1) ≤ 275008 := by
      split_ifs <;> omega
    generalize (if 0 ≤ year + 7 + 1 ∧ year + 7 + 1 ≤ 99 then 1900 + (year + 7 + 1)
      else year + 7 + 1) = yr at hyr hs ⊢
    have a := DayFromYear_lower yr
    have b := DayFromYear_upper yr
    rw [hs (TimeClip_eq_some _ (by omega) (by omega)), TimeClip_eq_some _ (by omega) (by omega)]
  · left
    refine ⟨by omega, ?_⟩
    rw [if_neg ho, if_neg ho]
    have hs := setDate_mkDate_january (year + 7) ((month - 1) * 30 + day + c)
    have hyr : 100 ≤ (if 0 ≤ year + 7 ∧ year + 7 ≤ 99 then 1900 + (year + 7) else year + 7)
        ∧ (if 0 ≤ year + 7 ∧ year + 7 ≤ 99 then 1900 + (year + 7) else year + 7) ≤ 275008 := by
      split_ifs <;> omega
    generalize (if 0 ≤ year + 7 ∧ year + 7 ≤ 99 then 1900 + (year + 7) else year + 7)
      = yr at hyr hs ⊢
    have a := DayFromYear_lower yr
    have b := DayFromYear_upper yr
    rw [hs (TimeClip_eq_some _ (by omega) (by omega)), TimeClip_eq_some _ (by omega) (by omega)]

end EthiopianCalendar

namespace EthiopianCalendar
open JS

/-- Stepping from Gregorian year `G` to `G + 1`, both read as `new Date` reads
them, adds the length the code takes for `G`, except from 99 to 100. -/
theorem DayFromYear_next (G len : Int) (hG : 8 ≤ G) (h99 : G ≠ 99)
    (hl : (isGregorianLeapYear G = true ∧ len = 366)
      ∨ (isGregorianLeapYear G = false ∧ len = 365)) :
    DayFromYear (if 0 ≤ G + 1 ∧ G + 1 ≤ 99 then 1900 + (G + 1) else G + 1)
      = DayFromYear (if 0 ≤ G ∧ G ≤ 99 then 1900 + G else G) + len := by
  have hlen : DaysInYear G = len := by
    have h := isGregorianLeapYear_iff G
    have hp := DaysInYear_pos G
    rcases hl with ⟨a, b⟩ | ⟨a, b⟩
    · rw [b]; exact h.mp a
    · rw [b]
      rcases hp with hp | hp
      · exact hp
      · rw [h.mpr hp] at a; cases a
  by_cases hs : G ≤ 98
  · rw [if_pos ⟨by omega, by omega⟩, if_pos ⟨by omega, by omega⟩]
    have e : 1900 + (G + 1) = 1900 + G + 1 := by omega
    rw [e, DayFromYear_succ, DaysInYear_century G (by omega) (by omega), hlen]
  · rw [if_neg (by omega), if_neg (by omega), DayFromYear_succ, hlen]

/-- Within one Ethiopian month the returned `Date`s are consecutive days, the
month 4 of year 92 (which runs from 1999 into the year 100) apart. -/
theorem ethiopianToGregorian_consecutive (year month k : Int) (hy1 : 1 ≤ year)
    (hy2 : year ≤ 275000) (h1 : 1 ≤ month) (h2 : month ≤ 13) (hk1 : 1 ≤ k)
    (hk2 : k ≤ (if month = 13 then (if isEthiopianLeapYear year then 6 else 5) else 30))
    (hex : ¬ (year = 92 ∧ month = 4)) :
    ∃ t, ethiopianToGregorian year month 1 = .ok (some t)
      ∧ ethiopianToGregorian year month k = .ok (some (t + (k - 1))) := by
  have hb := getDaysInEthiopianMonth_bounds month year
  obtain ⟨c, len, hcl, hd1⟩ :=
    ethiopianToGregorian_dayNumber year month 1 hy1 hy2 h1 h2 (le_refl 1) (by omega)
  obtain ⟨c', len', hcl', hdk⟩ :=
    ethiopianToGregorian_dayNumber year month k hy1 hy2 h1 h2 hk1 hk2
  have hcc : c' = c ∧ len' = len := by
    rcases hcl with ⟨a, b, d⟩ | ⟨a, b, d⟩ <;> rcases hcl' with ⟨a', b', d'⟩ | ⟨a', b', d'⟩
    · omega
    · rw [a] at a'; cases a'
    · rw [a] at a'; cases a'
    · omega
  obtain ⟨e1, e2⟩ := hcc
  subst e1 e2
  generalize (if month = 13 then (if isEthiopianLeapYear year then (6 : Int) else 5) else 30)
    = mx at hk2 hb
  have hc : (c' = 256 ∧ len' = 366) ∨ (c' = 257 ∧ len' = 365) := by
    rcases hcl with ⟨_, b, d⟩ | ⟨_, b, d⟩
    · left; exact ⟨b, d⟩
    · right; exact ⟨b, d⟩
  rcases hd1 with ⟨o1, r1⟩ | ⟨o1, r1⟩ <;> rcases hdk with ⟨ok, rk⟩ | ⟨ok, rk⟩
  · refine ⟨_, r1, ?_⟩
    rw [rk]
    congr 2
    omega
  · have hm : month = 4 := by omega
    have hn := DayFromYear_next (year + 7) len' (by omega) (by omega)
      (by
        rcases hcl with ⟨a, _, d⟩ | ⟨a, _, d⟩
        · left; exact ⟨a, d⟩
        · right; exact ⟨a, d⟩)
    refine ⟨_, r1, ?_⟩
    rw [rk, hn]
    congr 2
    omega
  · omega
  · refine ⟨_, r1, ?_⟩
    rw [rk]
    congr 2
    omega

end EthiopianCalendar

namespace EthiopianCalendar
open JS

/-- A `for` loop whose body never throws returns the list of its results. -/
theorem mapM_except_ok {α β : Type} (f : α → Except String β) (g : α → β) (l : List α)
    (h : ∀ x ∈ l, f x = .ok (g x)) : l.mapM f = .ok (l.map g) := by
  induction l with
  | nil => rfl
  | cons a as ih =>
    rw [List.mapM_cons, h a (List.mem_cons_self a as),
      ih (fun x hx => h x (List.mem_cons_of_mem a hx))]
    rfl

/-- The cell `getMonthDays` pushes for a day the month has. -/
theorem monthDayCell_ok (year month day : Int) (h1 : 1 ≤ month) (h2 : month ≤ 13)
    (h3 : 1 ≤ day)
    (h4 : day ≤ (if month = 13 then (if isEthiopianLeapYear year then 6 else 5) else 30)) :
    ∃ g, ethiopianToGregorian year month day = .ok g
      ∧ monthDayCell year month day = .ok (some {
          day := day
          weekDay := getDay g
          gregorianDate := g
          isHoliday := (isHoliday month day).isSome
          holidayName := (isHoliday month day).map (fun h => h.name) }) := by
  have e := ethiopianToGregorian_ok year month day h1 h2 h3 h4
  refine ⟨_, e, ?_⟩
  unfold monthDayCell
  rw [e]

/-- The array `getMonthDays` returns for a month in 1..13: the padding, which
depends on the first day's `Date`, followed by one cell for each day. -/
theorem getMonthDays_shape (year month : Int) (h1 : 1 ≤ month) (h2 : month ≤ 13) :
    ∃ g pad ys, ethiopianToGregorian year month 1 = .ok g
      ∧ getMonthDays year month = .ok (pad ++ ys)
      ∧ (∀ t, g = some t → pad = List.replicate (WeekDay t).toNat none)
      ∧ (g = none → pad = [])
      ∧ ys.length
          = (if month = 13 then (if isEthiopianLeapYear year then (6 : Int) else 5)
              else 30).toNat
      ∧ ∀ j : Nat, j < ys.length →
          ∃ gj, ethiopianToGregorian year month ((j : Int) + 1) = .ok gj
            ∧ ys[j]? = some (some {
                day := (j : Int) + 1
                weekDay := getDay gj
                gregorianDate := gj
                isHoliday := (isHoliday month ((j : Int) + 1)).isSome
                holidayName := (isHoliday month ((j : Int) + 1)).map (fun h => h.name) }) := by
  have hb := getDaysInEthiopianMonth_bounds month year
  have hd := getDaysInEthiopianMonth_ok month year h1 h2
  have hcell : ∀ i ∈ List.range
      (if month = 13 then (if isEthiopianLeapYear year then (6 : Int) else 5) else 30).toNat,
      monthDayCell year month ((i : Int) + 1)
        = .ok ((fun i : Nat =>
            match monthDayCell year month ((i : Int) + 1) with
            | .ok c => c
            | .error _ => none) i) := by
    intro i hi
    rw [List.mem_range] at hi
    obtain ⟨g, _, hc⟩ := monthDayCell_ok year month ((i : Int) + 1) h1 h2 (by omega) (by omega)
    simp only [hc]
  have hm := mapM_except_ok _ _ _ hcell
  obtain ⟨g, e1⟩ : ∃ g, ethiopianToGregorian year month 1 = .ok g :=
    ⟨_, ethiopianToGregorian_ok year month 1 h1 h2 (le_refl 1) (by omega)⟩
  generalize hmx : (if month = 13 then (if isEthiopianLeapYear year then (6 : Int) else 5)
    else 30) = mx at hb hd hm hcell ⊢
  have hlen : ((List.range mx.toNat).map (fun i : Nat =>
      match monthDayCell year month ((i : Int) + 1) with
      | .ok c => c
      | .error _ => none)).length = mx.toNat := by
    rw [List.length_map, List.length_range]
  have hcells : ∀ j : Nat, j < ((List.range mx.toNat).map (fun i : Nat =>
      match monthDayCell year month ((i : Int) + 1) with
      | .ok c => c
      | .error _ => none)).length →
      ∃ gj, ethiopianToGregorian year month ((j : Int) + 1) = .ok gj
        ∧ ((List.range mx.toNat).map (fun i : Nat =>
            match monthDayCell year month ((i : Int) + 1) with
            | .ok c => c
            | .error _ => none))[j]? = some (some {
              day := (j : Int) + 1
              weekDay := getDay gj
              gregorianDate := gj
              isHoliday := (isHoliday month ((j : Int) + 1)).isSome
              holidayName := (isHoliday month ((j : Int) + 1)).map (fun h => h.name) }) := by
    intro j hj
    rw [hlen] at hj
    obtain ⟨g, hg, hc⟩ := monthDayCell_ok year month ((j : Int) + 1) h1 h2 (by omega)
      (by rw [hmx]; omega)
    refine ⟨g, hg, ?_⟩
    rw [List.getElem?_map, List.getElem?_range hj]
    simp only [Option.map_some', hc]
  have hget : getMonthDays year month
      = .ok ((match getDay g with
          | some firstWeekDay => List.replicate firstWeekDay.toNat none
          | none => []) ++ (List.range mx.toNat).map (fun i : Nat =>
            match monthDayCell year month ((i : Int) + 1) with
            | .ok c => c
            | .error _ => none)) := by
    unfold getMonthDays
    rw [hd]
    dsimp only
    rw [e1]
    dsimp only
    rw [hm]
  cases g with
  | none =>
    exact ⟨none, [], _, e1, hget.trans rfl, (fun t ht => by cases ht), fun _ => rfl, hlen, hcells⟩
  | some t =>
    refine ⟨some t, List.replicate (WeekDay t).toNat none, _, e1, hget.trans rfl, ?_, ?_,
      hlen, hcells⟩
    · intro t2 ht
      injection ht with ht
      rw [ht]
    · intro hn
      cases hn

end EthiopianCalendar

namespace EthiopianCalendar
open JS

theorem isEthiopianLeapYear_iff (y : Int) (hy : 0 ≤ y) :
    isEthiopianLeapYear y = true ↔ y % 4 = 3 := by
  unfold isEthiopianLeapYear
  rw [Int.tmod_eq_emod hy (by norm_num), beq_iff_eq]

theorem monthNames_length (locale : Locale) : (monthNames locale).length = 13 := by
  cases locale <;> rfl

theorem dayNames_length (locale : Locale) : (dayNames locale).length = 7 := by
  cases locale <;> rfl

theorem getMonthName_ok (month : Int) (locale : Locale) (h1 : 1 ≤ month) (h2 : month ≤ 13) :
    ∃ name, getMonthName month locale = .ok (some name)
      ∧ (monthNames locale)[(month - 1).toNat]? = some name := by
  have hl : (month - 1).toNat < (monthNames locale).length := by
    rw [monthNames_length]; omega
  refine ⟨(monthNames locale)[(month - 1).toNat], ?_, List.getElem?_eq_getElem hl⟩
  unfold getMonthName
  rw [if_neg (by omega), List.getElem?_eq_getElem hl]

theorem getDayName_ok (i : Int) (locale : Locale) (h1 : 0 ≤ i) (h2 : i ≤ 6) :
    ∃ name, getDayName (some i) locale = .ok (some name)
      ∧ (dayNames locale)[i.toNat]? = some name := by
  have hl : i.toNat < (dayNames locale).length := by
    rw [dayNames_length]; omega
  refine ⟨(dayNames locale)[i.toNat], ?_, List.getElem?_eq_getElem hl⟩
  unfold getDayName
  dsimp only
  rw [if_neg (by omega), List.getElem?_eq_getElem hl]

/-- `getDayName` never throws on the weekday of a `Date`, valid or not. -/
theorem getDayName_getDay (g : Date) (locale : Locale) :
    ∃ dn, getDayName (getDay g) locale = .ok dn
      ∧ ∀ t, g = some t → ∃ name, dn = some name
          ∧ (dayNames locale)[(WeekDay t).toNat]? = some name := by
  cases g with
  | none => exact ⟨none, rfl, fun t ht => by cases ht⟩
  | some t =>
    obtain ⟨hw0, hw6⟩ := WeekDay_bounds t
    obtain ⟨name, hn, he⟩ := getDayName_ok (WeekDay t) locale hw0 hw6
    refine ⟨some name, hn, ?_⟩
    intro t2 ht
    injection ht with ht
    subst ht
    exact ⟨name, rfl, he⟩

end EthiopianCalendar

/-! ## The claims on the validator, the month grid and the presentation layer -/

namespace EthiopianCalendar
open JS

/-- C11: for every year `y ≥ 1` that is not an Ethiopian leap year
(`y % 4 ≠ 3`), `validateEthiopianDate(y, 13, 6)` reports the day error naming 5
as the maximum while `validateEthiopianDate(y, 13, 5)` reports valid; for every
leap year `y ≥ 1`, `validateEthiopianDate(y, 13, 6)` reports valid. -/
theorem validateEthiopianDate_pagume_day6 (y : Int) (hy : 1 ≤ y) :
    (y % 4 ≠ 3 →
      validateEthiopianDate y 13 6
          = .ok { valid := false, error := some "Invalid day. Month 13 has 5 days." }
        ∧ validateEthiopianDate y 13 5 = .ok { valid := true, error := none })
    ∧ (y % 4 = 3 → validateEthiopianDate y 13 6 = .ok { valid := true, error := none }) := by
  have hl := isEthiopianLeapYear_iff y (by omega)
  have hd := getDaysInEthiopianMonth_ok 13 y (by norm_num) (by norm_num)
  rw [if_pos rfl] at hd
  have c1 : ¬ (y < 1) := by omega
  have c2 : ¬ ((13 : Int) < 1 ∨ (13 : Int) > 13) := by norm_num
  constructor
  · intro hn
    have hf : isEthiopianLeapYear y = false := by
      rw [← Bool.not_eq_true, hl]; exact hn
    rw [hf] at hd
    constructor
    · unfold validateEthiopianDate
      rw [if_neg c1, if_neg c2, hd]
      rfl
    · unfold validateEthiopianDate
      rw [if_neg c1, if_neg c2, hd]
      rfl
  · intro hn
    rw [hl.mpr hn] at hd
    unfold validateEthiopianDate
    rw [if_neg c1, if_neg c2, hd]
    rfl

/-- The case 2016 of C11. -/
theorem validateEthiopianDate_pagume_day6_witness :
    (1 : Int) ≤ 2016 ∧ (2016 : Int) % 4 ≠ 3
      ∧ validateEthiopianDate 2016 13 6
          = .ok { valid := false, error := some "Invalid day. Month 13 has 5 days." }
      ∧ validateEthiopianDate 2016 13 5 = .ok { valid := true, error := none } :=
  ⟨by decide, by decide, (validateEthiopianDate_pagume_day6 2016 (by decide)).1 (by decide)⟩

/-- C12: for every year `y ≥ 1` the JS `isEthiopianLeapYear` and the PHP
`isLeapYear` both return true exactly when `y mod 4 = 3`, so they agree; 2015
and 2019 are leap years and 2016 is not. -/
theorem leapYear_js_php_agree (y : Int) (hy : 1 ≤ y) :
    (isEthiopianLeapYear y = true ↔ y % 4 = 3)
    ∧ (EthiopianDatePicker.isLeapYear y = true ↔ y % 4 = 3)
    ∧ isEthiopianLeapYear y = EthiopianDatePicker.isLeapYear y
    ∧ isEthiopianLeapYear 2015 = true ∧ EthiopianDatePicker.isLeapYear 2015 = true
    ∧ isEthiopianLeapYear 2019 = true ∧ EthiopianDatePicker.isLeapYear 2019 = true
    ∧ isEthiopianLeapYear 2016 = false ∧ EthiopianDatePicker.isLeapYear 2016 = false := by
  have hl := isEthiopianLeapYear_iff y (by omega)
  exact ⟨hl, hl, rfl, by decide, by decide, by decide, by decide, by decide, by decide⟩

/-- The case 2015 of C12. -/
theorem leapYear_js_php_agree_witness :
    (1 : Int) ≤ 2015 ∧ (isEthiopianLeapYear 2015 = true ↔ (2015 : Int) % 4 = 3)
      ∧ (EthiopianDatePicker.isLeapYear 2015 = true ↔ (2015 : Int) % 4 = 3) :=
  ⟨by decide, (leapYear_js_php_agree 2015 (by decide)).1,
    (leapYear_js_php_agree 2015 (by decide)).2.1⟩

/-- C13: `getDaysInEthiopianMonth(month, year)` returns 30 for the months
1..12, for month 13 it returns 6 when `year % 4 === 3` and 5 otherwise (6 for
2015, 5 for 2016), and it throws for every month outside 1..13; the lengths of
the months 1..13 of a year sum to 366 in a leap year and to 365 otherwise. -/
theorem getDaysInEthiopianMonth_lengths (month year : Int) :
    (1 ≤ month ∧ month ≤ 12 → getDaysInEthiopianMonth month year = .ok 30)
    ∧ (year.tmod 4 = 3 → getDaysInEthiopianMonth 13 year = .ok 6)
    ∧ (year.tmod 4 ≠ 3 → getDaysInEthiopianMonth 13 year = .ok 5)
    ∧ getDaysInEthiopianMonth 13 2015 = .ok 6
    ∧ getDaysInEthiopianMonth 13 2016 = .ok 5
    ∧ (month < 1 ∨ 13 < month → getDaysInEthiopianMonth month year
        = .error ("Invalid Ethiopian month: " ++ toString month ++ ". Must be between 1 and 13."))
    ∧ ∃ lens, (List.range 13).mapM (fun i : Nat => getDaysInEthiopianMonth ((i : Int) + 1) year)
          = .ok lens
        ∧ lens.sum = (if isEthiopianLeapYear year then 366 else 365) := by
  have h13 := getDaysInEthiopianMonth_ok 13 year (by norm_num) (by norm_num)
  rw [if_pos rfl] at h13
  refine ⟨?_, ?_, ?_, by decide, by decide, ?_, ?_⟩
  · intro h
    rw [getDaysInEthiopianMonth_ok month year h.1 (by omega), if_neg (by omega)]
  · intro h
    have hl : isEthiopianLeapYear year = true := by
      unfold isEthiopianLeapYear; rw [h]; rfl
    rw [h13, hl]; rfl
  · intro h
    have hl : isEthiopianLeapYear year = false := by
      unfold isEthiopianLeapYear
      rw [beq_eq_false_iff_ne]; exact h
    rw [h13, hl]; rfl
  · intro h
    unfold getDaysInEthiopianMonth
    rw [if_pos (by omega)]
  · refine ⟨_, mapM_except_ok _
      (fun i : Nat => if (i : Int) + 1 = 13 then (if isEthiopianLeapYear year then 6 else 5)
        else 30) _ ?_, ?_⟩
    · intro i hi
      rw [List.mem_range] at hi
      exact getDaysInEthiopianMonth_ok _ year (by omega) (by omega)
    · by_cases hl : isEthiopianLeapYear year = true
      · simp [hl, List.range_succ]
      · simp [hl, List.range_succ]

/-- The cases month 7 and month 13 of 2019 of C13. -/
theorem getDaysInEthiopianMonth_lengths_witness :
    getDaysInEthiopianMonth 7 2016 = .ok 30 ∧ getDaysInEthiopianMonth 13 2019 = .ok 6 :=
  ⟨(getDaysInEthiopianMonth_lengths 7 2016).1 (by decide),
    (getDaysInEthiopianMonth_lengths 7 2019).2.1 (by decide)⟩

/-- C14, as stated, fails at year 300000, month 1: the first day's `Date` is
the Invalid Date, its weekday is `NaN`, no `null` is pushed and the array has
the 30 day cells only, the first element being a cell. -/
theorem getMonthDays_300000_1 :
    (1 : Int) ≤ 300000
    ∧ ethiopianToGregorian 300000 1 1 = .ok none
    ∧ getDay none = none
    ∧ getDaysInEthiopianMonth 1 300000 = .ok 30
    ∧ (getMonthDays 300000 1).map (fun cells => cells.length) = .ok 30
    ∧ (getMonthDays 300000 1).map (fun cells => cells.head?.map (fun c => c.isSome))
        = .ok (some true) := by
  decide

/-- C14, as amended: for every year in 1..275000 and month in 1..13,
`getMonthDays` returns an array of length `w + daysInMonth`, where `w` in 0..6
is the weekday of `ethiopianToGregorian(year, month, 1)`; its first `w` entries
are `null` and the entry at index `w + k - 1` is a cell with `day = k`, for
every `k` in 1..`daysInMonth`. -/
theorem getMonthDays_grid (year month : Int) (hy1 : 1 ≤ year) (hy2 : year ≤ 275000)
    (hm1 : 1 ≤ month) (hm2 : month ≤ 13) :
    ∃ t dim cells, ethiopianToGregorian year month 1 = .ok (some t)
      ∧ getDaysInEthiopianMonth month year = .ok dim
      ∧ getMonthDays year month = .ok cells
      ∧ 0 ≤ WeekDay t ∧ WeekDay t ≤ 6
      ∧ (cells.length : Int) = WeekDay t + dim
      ∧ (∀ i : Nat, (i : Int) < WeekDay t → cells[i]? = some none)
      ∧ (∀ k : Int, 1 ≤ k → k ≤ dim →
          ∃ c, cells[(WeekDay t + k - 1).toNat]? = some (some c) ∧ c.day = k) := by
  have hb := getDaysInEthiopianMonth_bounds month year
  have hd := getDaysInEthiopianMonth_ok month year hm1 hm2
  obtain ⟨t, ht⟩ := ethiopianToGregorian_valid year month 1 hy1 hy2 hm1 hm2 (le_refl 1)
    (by omega)
  obtain ⟨g, pad, ys, hg, hcells, hp1, _, hlen, hys⟩ := getMonthDays_shape year month hm1 hm2
  rw [ht] at hg
  injection hg with hg
  have hpad := hp1 t hg.symm
  obtain ⟨hw0, hw6⟩ := WeekDay_bounds t
  generalize (if month = 13 then (if isEthiopianLeapYear year then (6 : Int) else 5) else 30)
    = mx at hb hd hlen
  subst hpad
  refine ⟨t, mx, _, ht, hd, hcells, hw0, hw6, ?_, ?_, ?_⟩
  · rw [List.length_append, List.length_replicate, hlen]
    omega
  · intro i hi
    rw [List.getElem?_append_left (by rw [List.length_replicate]; omega)]
    exact List.getElem?_replicate_of_lt (by omega)
  · intro k hk1 hk2
    have hj : (k - 1).toNat < ys.length := by omega
    obtain ⟨gj, _, hc⟩ := hys (k - 1).toNat hj
    have hidx : (WeekDay t + k - 1).toNat
        = (List.replicate (WeekDay t).toNat (none : Option MonthGridCell)).length
          + (k - 1).toNat := by
      rw [List.length_replicate]; omega
    rw [hidx, List.getElem?_append_right (Nat.le_add_right _ _), Nat.add_sub_cancel_left]
    refine ⟨_, hc, ?_⟩
    show ((k - 1).toNat : Int) + 1 = k
    omega

/-- The month 1 of 2016 of C14: five `null`s and thirty cells. -/
theorem getMonthDays_grid_witness :
    ∃ t cells, ethiopianToGregorian 2016 1 1 = .ok (some t)
      ∧ getMonthDays 2016 1 = .ok cells
      ∧ (cells.length : Int) = WeekDay t + 30 := by
  obtain ⟨t, dim, cells, a, b, c, _, _, d, _⟩ :=
    getMonthDays_grid 2016 1 (by decide) (by decide) (by decide) (by decide)
  have e : getDaysInEthiopianMonth 1 2016 = .ok 30 := by decide
  rw [e] at b
  injection b with b
  subst b
  exact ⟨t, cells, a, c, d⟩

/-- C15, as stated, fails at year 300000, month 2, where the cell at index 0
has the weekday `NaN` of an Invalid Date; it also fails at year 92, month 4,
where the cell at index 20 has weekday 5 and not 6. -/
theorem getMonthDays_300000_2 :
    (1 : Int) ≤ 300000
    ∧ (getMonthDays 300000 2).map (fun cells => cells[0]?.map (fun c => c.map (fun c => c.weekDay)))
        = .ok (some (some none))
    ∧ (getMonthDays 92 4).map (fun cells => cells[20]?.map (fun c => c.map (fun c => c.weekDay)))
        = .ok (some (some (some 5)))
    ∧ (20 : Int) % 7 = 6 := by
  decide

/-- C15, as amended: for every year in 1..275000 and month in 1..13, month 4
of year 92 apart, every cell of `getMonthDays(year, month)` at index `i` has
`weekDay = i mod 7`, and that is the weekday of its `gregorianDate`, the `Date`
`ethiopianToGregorian(year, month, cell.day)` returns. -/
theorem getMonthDays_aligned (year month : Int) (hy1 : 1 ≤ year) (hy2 : year ≤ 275000)
    (hm1 : 1 ≤ month) (hm2 : month ≤ 13) (hex : ¬ (year = 92 ∧ month = 4)) :
    ∃ cells, getMonthDays year month = .ok cells
      ∧ ∀ (i : Nat) (c : MonthGridCell), cells[i]? = some (some c) →
          c.weekDay = some ((i : Int) % 7)
          ∧ ethiopianToGregorian year month c.day = .ok c.gregorianDate
          ∧ c.weekDay = getDay c.gregorianDate := by
  have hb := getDaysInEthiopianMonth_bounds month year
  obtain ⟨t, ht⟩ := ethiopianToGregorian_valid year month 1 hy1 hy2 hm1 hm2 (le_refl 1)
    (by omega)
  obtain ⟨g, pad, ys, hg, hcells, hp1, _, hlen, hys⟩ := getMonthDays_shape year month hm1 hm2
  rw [ht] at hg
  injection hg with hg
  have hpad := hp1 t hg.symm
  obtain ⟨hw0, hw6⟩ := WeekDay_bounds t
  subst hpad
  refine ⟨_, hcells, ?_⟩
  intro i c hic
  by_cases hi : i < (WeekDay t).toNat
  · rw [List.getElem?_append_left (by rw [List.length_replicate]; exact hi),
      List.getElem?_replicate_of_lt hi] at hic
    injection hic with hic
    cases hic
  · rw [List.getElem?_append_right (by rw [List.length_replicate]; omega),
      List.length_replicate] at hic
    have hj : i - (WeekDay t).toNat < ys.length := by
      by_contra hge
      rw [List.getElem?_eq_none (by omega)] at hic
      cases hic
    obtain ⟨gj, hgj, hc⟩ := hys _ hj
    rw [hic] at hc
    injection hc with hc
    injection hc with hc
    obtain ⟨t1, e1, ek⟩ := ethiopianToGregorian_consecutive year month
      (((i - (WeekDay t).toNat : Nat) : Int) + 1) hy1 hy2 hm1 hm2 (by omega)
      (by rw [hlen] at hj; omega) hex
    rw [ht] at e1
    injection e1 with e1
    injection e1 with e1
    subst e1
    rw [hgj] at ek
    injection ek with ek
    subst ek
    subst hc
    refine ⟨?_, hgj, rfl⟩
    show some (WeekDay (t + (((i - (WeekDay t).toNat : Nat) : Int) + 1 - 1))) = _
    rw [WeekDay_add]
    congr 1
    omega

/-- The month 1 of 2016 of C15. -/
theorem getMonthDays_aligned_witness :
    ∃ cells, getMonthDays 2016 1 = .ok cells
      ∧ ∀ (i : Nat) (c : MonthGridCell), cells[i]? = some (some c) →
          c.weekDay = some ((i : Int) % 7) := by
  obtain ⟨cells, h1, h2⟩ := getMonthDays_aligned 2016 1 (by decide) (by decide) (by decide)
    (by decide) (by decide)
  exact ⟨cells, h1, fun i c h => (h2 i c h).1⟩

/-- C16: `getMonthDays(year, month)` returns an array for every month in
1..13, whatever the year, and throws the invalid-month error of
`getDaysInEthiopianMonth` for every month outside 1..13. -/
theorem getMonthDays_fails_iff (year month : Int) :
    (1 ≤ month ∧ month ≤ 13 → ∃ cells, getMonthDays year month = .ok cells)
    ∧ (month < 1 ∨ 13 < month → getMonthDays year month
        = .error ("Invalid Ethiopian month: " ++ toString month
            ++ ". Must be between 1 and 13.")) := by
  constructor
  · intro h
    obtain ⟨_, pad, ys, _, hg, _⟩ := getMonthDays_shape year month h.1 h.2
    exact ⟨_, hg⟩
  · intro h
    unfold getMonthDays getDaysInEthiopianMonth
    rw [if_pos (by omega)]

/-- The months 13 and 14 of 2016 of C16. -/
theorem getMonthDays_fails_iff_witness :
    (∃ cells, getMonthDays 2016 13 = .ok cells)
      ∧ getMonthDays 2016 14
        = .error "Invalid Ethiopian month: 14. Must be between 1 and 13." :=
  ⟨(getMonthDays_fails_iff 2016 13).1 (by decide),
    (getMonthDays_fails_iff 2016 14).2 (by decide)⟩

/-- C17: for every date whose month and day are valid,
`formatDate(year, month, day, 'en', false)` is the month name, a blank, the
day, a comma and a blank, and the year, and with `'am'` it is the day, the month
name and the year separated by blanks; for (2016, 1, 1) these are
`Meskerem 1, 2016` and `1 መስከረም 2016`. -/
theorem formatDate_plain (year month day : Int) (h1 : 1 ≤ month) (h2 : month ≤ 13)
    (h3 : 1 ≤ day)
    (h4 : day ≤ (if month = 13 then (if isEthiopianLeapYear year then 6 else 5) else 30)) :
    (∃ en, getMonthName month .en = .ok (some en)
      ∧ formatDate year month day .en false
        = .ok (en ++ " " ++ toString day ++ ", " ++ toString year))
    ∧ (∃ am, getMonthName month .am = .ok (some am)
      ∧ formatDate year month day .am false
        = .ok (toString day ++ " " ++ am ++ " " ++ toString year))
    ∧ formatDate 2016 1 1 .en false = .ok "Meskerem 1, 2016"
    ∧ formatDate 2016 1 1 .am false = .ok "1 መስከረም 2016" := by
  have hg := ethiopianToGregorian_ok year month day h1 h2 h3 h4
  refine ⟨?_, ?_, by decide, by decide⟩
  · obtain ⟨en, hn, _⟩ := getMonthName_ok month .en h1 h2
    refine ⟨en, hn, ?_⟩
    unfold formatDate
    rw [hn, hg]
    rfl
  · obtain ⟨am, hn, _⟩ := getMonthName_ok month .am h1 h2
    refine ⟨am, hn, ?_⟩
    unfold formatDate
    rw [hn, hg]
    rfl

/-- The date (2015, 13, 6) of C17. -/
theorem formatDate_plain_witness :
    (∃ en, getMonthName 13 .en = .ok (some en)
      ∧ formatDate 2015 13 6 .en false
        = .ok (en ++ " " ++ toString (6 : Int) ++ ", " ++ toString (2015 : Int))) :=
  (formatDate_plain 2015 13 6 (by decide) (by decide) (by decide) (by decide)).1

/-- C18: for every date whose month and day are valid and either locale,
`formatDate(..., true)` is the day name `getDayName` returns for the weekday of
`ethiopianToGregorian(year, month, day)`, followed by the separator of the
locale and by `formatDate(..., false)`; for years 1..275000 the weekday is in
0..6 and the day name is an entry of the table. -/
theorem formatDate_weekday (year month day : Int) (locale : Locale) (h1 : 1 ≤ month)
    (h2 : month ≤ 13) (h3 : 1 ≤ day)
    (h4 : day ≤ (if month = 13 then (if isEthiopianLeapYear year then 6 else 5) else 30)) :
    ∃ g dn rest, ethiopianToGregorian year month day = .ok g
      ∧ getDayName (getDay g) locale = .ok dn
      ∧ formatDate year month day locale false = .ok rest
      ∧ formatDate year month day locale true
        = .ok (templateString dn ++ (if locale = .am then "፣ " else ", ") ++ rest)
      ∧ (1 ≤ year → year ≤ 275000 → ∃ t name, g = some t ∧ dn = some name
          ∧ (dayNames locale)[(WeekDay t).toNat]? = some name) := by
  obtain ⟨g, hg⟩ : ∃ g, ethiopianToGregorian year month day = .ok g :=
    ⟨_, ethiopianToGregorian_ok year month day h1 h2 h3 h4⟩
  obtain ⟨mn, hn, _⟩ := getMonthName_ok month locale h1 h2
  obtain ⟨dn, hd, hdn⟩ := getDayName_getDay g locale
  have hvalid : 1 ≤ year → year ≤ 275000 → ∃ t name, g = some t ∧ dn = some name
      ∧ (dayNames locale)[(WeekDay t).toNat]? = some name := by
    intro hy1 hy2
    obtain ⟨t, ht⟩ := ethiopianToGregorian_valid year month day hy1 hy2 h1 h2 h3 h4
    rw [hg] at ht
    injection ht with ht
    obtain ⟨name, e1, e2⟩ := hdn t ht
    exact ⟨t, name, ht, e1, e2⟩
  cases locale with
  | am =>
    refine ⟨g, dn, toString day ++ " " ++ mn ++ " " ++ toString year, hg, hd, ?_, ?_, hvalid⟩
    · unfold formatDate
      rw [hn, hg]
      rfl
    · unfold formatDate
      rw [hn, hg]
      dsimp only
      rw [if_pos rfl, hd]
      simp only [if_true, String.append_assoc]
      rfl
  | en =>
    refine ⟨g, dn, mn ++ " " ++ toString day ++ ", " ++ toString year, hg, hd, ?_, ?_, hvalid⟩
    · unfold formatDate
      rw [hn, hg]
      rfl
    · unfold formatDate
      rw [hn, hg]
      dsimp only
      rw [if_pos rfl, hd]
      simp only [String.append_assoc]
      rfl

/-- The date (2016, 1, 1), in English, of C18. -/
theorem formatDate_weekday_witness :
    ∃ g dn rest, ethiopianToGregorian 2016 1 1 = .ok g
      ∧ getDayName (getDay g) .en = .ok dn
      ∧ formatDate 2016 1 1 .en false = .ok rest
      ∧ formatDate 2016 1 1 .en true = .ok (templateString dn ++ ", " ++ rest) := by
  obtain ⟨g, dn, rest, a, b, c, d, _⟩ :=
    formatDate_weekday 2016 1 1 .en (by decide) (by decide) (by decide) (by decide)
  exact ⟨g, dn, rest, a, b, c, d⟩

/-- C19: `getMonthName` throws for every month outside 1..13 (14 for one) and
otherwise returns entry `month - 1` of the 13-entry month table of the locale;
`getDayName` throws for every index outside 0..6 (7 for one) and otherwise
returns entry `index` of the 7-entry day table. -/
theorem names_lookup (i : Int) (locale : Locale) :
    (i < 1 ∨ 13 < i → getMonthName i locale = .error ("Invalid month: " ++ toString i))
    ∧ (1 ≤ i ∧ i ≤ 13 → ∃ name, getMonthName i locale = .ok (some name)
        ∧ (monthNames locale)[(i - 1).toNat]? = some name)
    ∧ (monthNames locale).length = 13
    ∧ (i < 0 ∨ 6 < i → getDayName (some i) locale
        = .error ("Invalid day index: " ++ toString i))
    ∧ (0 ≤ i ∧ i ≤ 6 → ∃ name, getDayName (some i) locale = .ok (some name)
        ∧ (dayNames locale)[i.toNat]? = some name)
    ∧ (dayNames locale).length = 7
    ∧ getMonthName 14 .en = .error "Invalid month: 14"
    ∧ getDayName (some 7) .en = .error "Invalid day index: 7" := by
  refine ⟨?_, fun h => getMonthName_ok i locale h.1 h.2, monthNames_length locale, ?_,
    fun h => getDayName_ok i locale h.1 h.2, dayNames_length locale, by decide, by decide⟩
  · intro h
    unfold getMonthName
    rw [if_pos (by omega)]
  · intro h
    unfold getDayName
    dsimp only
    rw [if_pos (by omega)]

/-- The month 13 and the index -1 of C19. -/
theorem names_lookup_witness :
    (∃ name, getMonthName 13 .en = .ok (some name)
        ∧ (monthNames .en)[((13 : Int) - 1).toNat]? = some name)
      ∧ getDayName (some (-1)) .am = .error ("Invalid day index: " ++ toString (-1 : Int)) :=
  ⟨(names_lookup 13 .en).2.1 (by decide), (names_lookup (-1) .am).2.2.2.1 (by decide)⟩

/-- C20: `isHoliday(month, day)` returns an entry exactly when (month, day)
is one of the six keys of the table, which are pairwise distinct; the entry it
returns has that month and day; for every other pair it returns no entry; and
the `isHoliday` flag of every cell of `getMonthDays` is true exactly when
`isHoliday(month, cell.day)` returns an entry. -/
theorem isHoliday_exact (month day : Int) :
    ((isHoliday month day).isSome ↔
      (month, day) ∈ [((1 : Int), (1 : Int)), (1, 17), (4, 29), (5, 11), (9, 23), (9, 25)])
    ∧ holidays.map (fun h => (h.month, h.day))
        = [(1, 1), (1, 17), (4, 29), (5, 11), (9, 23), (9, 25)]
    ∧ (holidays.map (fun h => (h.month, h.day))).Nodup
    ∧ (∀ h, isHoliday month day = some h → h.month = month ∧ h.day = day)
    ∧ (isHoliday month day = none ↔
      (month, day) ∉ [((1 : Int), (1 : Int)), (1, 17), (4, 29), (5, 11), (9, 23), (9, 25)])
    ∧ (∀ year cells c, getMonthDays year month = .ok cells → some c ∈ cells →
        (c.isHoliday = true ↔ (isHoliday month c.day).isSome = true)) := by
  have hsome : (isHoliday month day).isSome ↔
      (month, day) ∈ [((1 : Int), (1 : Int)), (1, 17), (4, 29), (5, 11), (9, 23), (9, 25)] := by
    unfold isHoliday
    rw [List.find?_isSome]
    simp only [holidays, List.mem_cons, List.mem_singleton, exists_eq_or_imp, exists_eq_left,
      Bool.and_eq_true, beq_iff_eq, Prod.mk.injEq, List.not_mem_nil, or_false, false_and,
      exists_false, eq_comm (a := month), eq_comm (a := day)]
  refine ⟨hsome, by decide, by decide, ?_, ?_, ?_⟩
  · intro h hh
    unfold isHoliday at hh
    have := List.find?_some hh
    simp only [Bool.and_eq_true, beq_iff_eq] at this
    exact this
  · rw [← hsome]
    cases isHoliday month day <;> simp
  · intro year cells c hc hmem
    by_cases hm : 1 ≤ month ∧ month ≤ 13
    · obtain ⟨g, pad, ys, _, hg, hp1, hp2, _, hys⟩ := getMonthDays_shape year month hm.1 hm.2
      rw [hg] at hc
      injection hc with hc
      subst hc
      rw [List.mem_append] at hmem
      rcases hmem with hmem | hmem
      · cases g with
        | none => rw [hp2 rfl] at hmem; cases hmem
        | some t =>
          rw [hp1 t rfl] at hmem
          have := List.eq_of_mem_replicate hmem
          cases this
      · obtain ⟨j, hj, hjc⟩ := List.getElem_of_mem hmem
        obtain ⟨gj, _, hcell⟩ := hys j hj
        rw [List.getElem?_eq_getElem hj, hjc] at hcell
        injection hcell with hcell
        injection hcell with hcell
        subst hcell
        exact Iff.rfl
    · have : getMonthDays year month
          = .error ("Invalid Ethiopian month: " ++ toString month
            ++ ". Must be between 1 and 13.") := by
        unfold getMonthDays getDaysInEthiopianMonth
        rw [if_pos (by omega)]
      rw [this] at hc
      cases hc

/-- The pairs (9, 25) and (9, 24) of C20. -/
theorem isHoliday_exact_witness :
    (isHoliday 9 25).isSome = true ∧ isHoliday 9 24 = none :=
  ⟨(isHoliday_exact 9 25).1.mpr (by decide), (isHoliday_exact 9 24).2.2.2.2.1.mpr (by decide)⟩

end EthiopianCalendar

/-! ## Further lemmas for the conversions -/

namespace JS

theorem MakeDay_of_month (y m dt : Int) (h0 : 0 ≤ m) (h1 : m ≤ 11) :
    MakeDay y m dt = DayFromYear y + monthStart m (leapOf y) + dt - 1 := by
  have e1 : m / 12 = 0 := by omega
  have e2 : m % 12 = m := by omega
  unfold MakeDay
  simp only [e1, e2, add_zero]

theorem MonthFromTime_bounds (t : Int) : 0 ≤ MonthFromTime t ∧ MonthFromTime t ≤ 11 := by
  have h := month_date_cases t
  generalize MonthFromTime t = M at h ⊢
  generalize DateFromTime t = D at h
  generalize DayWithinYear t = n at h
  generalize InLeapYear t = l at h
  rcases h with h | h | h | h | h | h | h | h | h | h | h | h <;> omega

/-- The year as `new Date` reads it has the leap day of the year itself, the
year 0 apart. -/
theorem leapOf_mapped (y : Int) (h0 : y ≠ 0) :
    leapOf (if 0 ≤ y ∧ y ≤ 99 then 1900 + y else y) = leapOf y := by
  by_cases h : 0 ≤ y ∧ y ≤ 99
  · rw [if_pos h]
    unfold leapOf
    rw [DaysInYear_century y (by omega) h.2]
  · rw [if_neg h]

/-- Rebuilding a `Date` from its own fields, as `new Date` reads the year. -/
theorem MakeDay_fields (t : Int) (h0 : YearFromTime t ≠ 0) :
    MakeDay (if 0 ≤ YearFromTime t ∧ YearFromTime t ≤ 99 then 1900 + YearFromTime t
        else YearFromTime t) (MonthFromTime t) (DateFromTime t)
      = DayFromYear (if 0 ≤ YearFromTime t ∧ YearFromTime t ≤ 99 then 1900 + YearFromTime t
        else YearFromTime t) + DayWithinYear t := by
  obtain ⟨m0, m1⟩ := MonthFromTime_bounds t
  rw [MakeDay_of_month _ _ _ m0 m1, leapOf_mapped _ h0]
  have hD : DateFromTime t
      = DayWithinYear t - monthStart (MonthFromTime t) (InLeapYear t) + 1 := rfl
  have hL : InLeapYear t = leapOf (YearFromTime t) := rfl
  rw [hD, hL]
  omega

/-- From the year before to a year, both as `new Date` reads them, is the
length of the year before, the years 0 and 100 apart. -/
theorem DayFromYear_mapped_pred (y : Int) (h0 : y ≠ 0) (h100 : y ≠ 100) :
    DayFromYear (if 0 ≤ y ∧ y ≤ 99 then 1900 + y else y)
      = DayFromYear (if 0 ≤ y - 1 ∧ y - 1 ≤ 99 then 1900 + (y - 1) else y - 1)
        + 365 + leapOf (if 0 ≤ y - 1 ∧ y - 1 ≤ 99 then 1900 + (y - 1) else y - 1) := by
  by_cases h : 0 ≤ y ∧ y ≤ 99
  · rw [if_pos h, if_pos ⟨by omega, by omega⟩]
    have e : 1900 + y = 1900 + (y - 1) + 1 := by omega
    rw [e, DayFromYear_succ, (leapOf_cases _).2]
    omega
  · rw [if_neg h, if_neg (by omega)]
    have e : y = y - 1 + 1 := by omega
    conv_lhs => rw [e]
    rw [DayFromYear_succ, (leapOf_cases _).2]
    omega

end JS

namespace EthiopianCalendar
open JS

theorem isGregorianLeapYear_leapOf (y : Int) :
    (isGregorianLeapYear y = true ∧ leapOf y = 1)
      ∨ (isGregorianLeapYear y = false ∧ leapOf y = 0) := by
  have h := isGregorianLeapYear_iff y
  obtain ⟨h01, hlen⟩ := leapOf_cases y
  by_cases hl : isGregorianLeapYear y = true
  · left
    refine ⟨hl, ?_⟩
    have := h.mp hl
    omega
  · right
    refine ⟨by simpa using hl, ?_⟩
    rcases h01 with h0 | h1
    · exact h0
    · exfalso
      apply hl
      apply h.mpr
      omega

end EthiopianCalendar

namespace EthiopianCalendar
open JS

/-- The three `Date`s `gregorianToEthiopian` builds, as day numbers, for a
valid `Date` of a year from -271820 on other than 0 and 100. -/
theorem gregorianToEthiopian_dates (t : Int) (ht : TimeClip t = some t)
    (hlow : -271820 ≤ YearFromTime t) (h0 : YearFromTime t ≠ 0)
    (h100 : YearFromTime t ≠ 100) :
    ∃ J l off off' : Int,
      (l = 0 ∨ l = 1) ∧ (off' = 11 ∨ off' = 12)
      ∧ ((isGregorianLeapYear (YearFromTime t) = true ∧ l = 1 ∧ off = 12)
        ∨ (isGregorianLeapYear (YearFromTime t) = false ∧ l = 0 ∧ off = 11))
      ∧ InLeapYear t = l
      ∧ mkDate (YearFromTime t) (MonthFromTime t + 1 - 1) (DateFromTime t)
          = some (J + DayWithinYear t)
      ∧ mkDate (YearFromTime t) 8 (if isGregorianLeapYear (YearFromTime t) then 12 else 11)
          = some (J + (242 + l + off))
      ∧ mkDate (YearFromTime t - 1) 8
          (if isGregorianLeapYear (YearFromTime t - 1) then 12 else 11)
          = some (J - 123 + off') := by
  have hb := (TimeClip_some_iff t).mp ht
  obtain ⟨hn0, hn1⟩ := DayWithinYear_bounds t
  have hday := Day_eq t
  have hpred := DayFromYear_mapped_pred (YearFromTime t) h0 h100
  have hfields := MakeDay_fields t h0
  have hlm := leapOf_mapped (YearFromTime t) h0
  have hleap := isGregorianLeapYear_leapOf (YearFromTime t)
  obtain ⟨hl01, hlen⟩ := leapOf_cases (YearFromTime t)
  obtain ⟨hl01', _⟩ := leapOf_cases
    (if 0 ≤ YearFromTime t - 1 ∧ YearFromTime t - 1 ≤ 99 then 1900 + (YearFromTime t - 1)
      else YearFromTime t - 1)
  have hoff' : ((if isGregorianLeapYear (YearFromTime t - 1) then (12 : Int) else 11) = 11
      ∨ (if isGregorianLeapYear (YearFromTime t - 1) then (12 : Int) else 11) = 12) := by
    split_ifs <;> simp
  have hoffv : ((isGregorianLeapYear (YearFromTime t) = true ∧ leapOf (YearFromTime t) = 1
        ∧ (if isGregorianLeapYear (YearFromTime t) then (12 : Int) else 11) = 12)
      ∨ (isGregorianLeapYear (YearFromTime t) = false ∧ leapOf (YearFromTime t) = 0
        ∧ (if isGregorianLeapYear (YearFromTime t) then (12 : Int) else 11) = 11)) := by
    rcases hleap with ⟨a, b⟩ | ⟨a, b⟩
    · left; exact ⟨a, b, by rw [a]; rfl⟩
    · right; exact ⟨a, b, by rw [a]; rfl⟩
  have hJ : -99999800 ≤ DayFromYear (if 0 ≤ YearFromTime t ∧ YearFromTime t ≤ 99
        then 1900 + YearFromTime t else YearFromTime t)
      ∧ DayFromYear (if 0 ≤ YearFromTime t ∧ YearFromTime t ≤ 99
        then 1900 + YearFromTime t else YearFromTime t) ≤ 99999745
      ∧ -100000000 ≤ DayFromYear (if 0 ≤ YearFromTime t ∧ YearFromTime t ≤ 99
        then 1900 + YearFromTime t else YearFromTime t) + DayWithinYear t
      ∧ DayFromYear (if 0 ≤ YearFromTime t ∧ YearFromTime t ≤ 99
        then 1900 + YearFromTime t else YearFromTime t) + DayWithinYear t ≤ 100000000 := by
    by_cases h : 0 ≤ YearFromTime t ∧ YearFromTime t ≤ 99
    · rw [if_pos h]
      have a := DayFromYear_lower (1900 + YearFromTime t)
      have b := DayFromYear_upper (1900 + YearFromTime t)
      omega
    · rw [if_neg h]
      have a := DayFromYear_lower (YearFromTime t)
      have b := DayFromYear_upper (YearFromTime t)
      have c : YearFromTime t ≤ 275760 := by omega
      omega
  have e1 : MonthFromTime t + 1 - 1 = MonthFromTime t := by omega
  have hcur : mkDate (YearFromTime t) (MonthFromTime t + 1 - 1) (DateFromTime t)
      = some (DayFromYear (if 0 ≤ YearFromTime t ∧ YearFromTime t ≤ 99
        then 1900 + YearFromTime t else YearFromTime t) + DayWithinYear t) := by
    rw [e1]
    unfold mkDate
    dsimp only
    rw [hfields]
    exact TimeClip_eq_some _ hJ.2.2.1 hJ.2.2.2
  have hnew : mkDate (YearFromTime t) 8
      (if isGregorianLeapYear (YearFromTime t) then 12 else 11)
      = some (DayFromYear (if 0 ≤ YearFromTime t ∧ YearFromTime t ≤ 99
        then 1900 + YearFromTime t else YearFromTime t)
        + (242 + leapOf (YearFromTime t)
          + (if isGregorianLeapYear (YearFromTime t) then 12 else 11))) := by
    unfold mkDate
    dsimp only
    rw [MakeDay_september, hlm]
    apply TimeClip_eq_some
    · rcases hoffv with ⟨_, a, b⟩ | ⟨_, a, b⟩ <;> rw [a, b] <;> omega
    · rcases hoffv with ⟨_, a, b⟩ | ⟨_, a, b⟩ <;> rw [a, b] <;> omega
  have hprev : mkDate (YearFromTime t - 1) 8
      (if isGregorianLeapYear (YearFromTime t - 1) then 12 else 11)
      = some (DayFromYear (if 0 ≤ YearFromTime t ∧ YearFromTime t ≤ 99
        then 1900 + YearFromTime t else YearFromTime t) - 123
        + (if isGregorianLeapYear (YearFromTime t - 1) then 12 else 11)) := by
    unfold mkDate
    dsimp only
    rw [MakeDay_september, hpred]
    generalize (if isGregorianLeapYear (YearFromTime t - 1) then (12 : Int) else 11) = off'
      at hoff' ⊢
    rw [hpred] at hJ
    generalize DayFromYear (if 0 ≤ YearFromTime t - 1 ∧ YearFromTime t - 1 ≤ 99
      then 1900 + (YearFromTime t - 1) else YearFromTime t - 1) = J' at hJ ⊢
    generalize leapOf (if 0 ≤ YearFromTime t - 1 ∧ YearFromTime t - 1 ≤ 99
      then 1900 + (YearFromTime t - 1) else YearFromTime t - 1) = l' at hJ hl01' ⊢
    have e : J' + (242 + l' + off') = J' + 365 + l' - 123 + off' := by
      omega
    rw [e]
    obtain ⟨hJ1, hJ2, _, _⟩ := hJ
    clear hpred hfields hlm hday hb hn0 hn1
    have b1 : -100000000 ≤ J' + 365 + l' - 123 + off' := by
      rcases hoff' with h | h <;> omega
    have b2 : J' + 365 + l' - 123 + off' ≤ 100000000 := by
      rcases hoff' with h | h <;> omega
    exact TimeClip_eq_some _ b1 b2
  exact ⟨_, _, _, _, hl01, hoff', hoffv, rfl, hcur, hnew, hprev⟩

end EthiopianCalendar

namespace EthiopianCalendar
open JS

/-- `ethiopianToGregorian` in terms of its variables `actualGregYear` and
`gregDayOfYear`. -/
theorem ethiopianToGregorian_parts (year month day : Int) (h1 : 1 ≤ month) (h2 : month ≤ 13)
    (h3 : 1 ≤ day)
    (h4 : day ≤ (if month = 13 then (if isEthiopianLeapYear year then 6 else 5) else 30)) :
    ethiopianToGregorian year month day
      = .ok (setDate (mkDate (actualGregYear year month day) 0 1)
          (gregDayOfYear year month day)) := by
  rw [ethiopianToGregorian_ok year month day h1 h2 h3 h4]
  unfold actualGregYear gregDayOfYear
  by_cases hl : isGregorianLeapYear (year + 7) = true
  · simp [hl]
  · simp [hl]

/-- The values of `actualGregYear` and `gregDayOfYear`, by cases on the leap
test of `year + 7` and on the overflow. -/
theorem gregDayOfYear_cases (year month day : Int) :
    ∃ c len : Int,
      ((isGregorianLeapYear (year + 7) = true ∧ c = 256 ∧ len = 366)
        ∨ (isGregorianLeapYear (year + 7) = false ∧ c = 257 ∧ len = 365))
      ∧ (((month - 1) * 30 + day + c ≤ len ∧ actualGregYear year month day = year + 7
          ∧ gregDayOfYear year month day = (month - 1) * 30 + day + c)
        ∨ (len < (month - 1) * 30 + day + c ∧ actualGregYear year month day = year + 7 + 1
          ∧ gregDayOfYear year month day = (month - 1) * 30 + day + c - len)) := by
  unfold actualGregYear gregDayOfYear
  by_cases hl : isGregorianLeapYear (year + 7) = true
  · refine ⟨256, 366, Or.inl ⟨hl, rfl, rfl⟩, ?_⟩
    by_cases ho : (month - 1) * 30 + day + 256 > 366
    · right; simp [hl, ho]
    · left; simp [hl, ho]; omega
  · refine ⟨257, 365, Or.inr ⟨by simpa using hl, rfl, rfl⟩, ?_⟩
    by_cases ho : (month - 1) * 30 + day + 257 > 365
    · right; simp [hl, ho]
    · left; simp [hl, ho]; omega

end EthiopianCalendar

namespace EthiopianDatePicker

theorem lookup_amharic (month : Int) (h1 : 1 ≤ month) (h2 : month ≤ 13) :
    ∃ name, getAmharicMonths.lookup month = some name := by
  have h : month = 1 ∨ month = 2 ∨ month = 3 ∨ month = 4 ∨ month = 5 ∨ month = 6 ∨ month = 7
      ∨ month = 8 ∨ month = 9 ∨ month = 10 ∨ month = 11 ∨ month = 12 ∨ month = 13 := by omega
  rcases h with h | h | h | h | h | h | h | h | h | h | h | h | h <;> subst h <;> exact ⟨_, rfl⟩

theorem lookup_english (month : Int) (h1 : 1 ≤ month) (h2 : month ≤ 13) :
    ∃ name, getEnglishMonths.lookup month = some name := by
  have h : month = 1 ∨ month = 2 ∨ month = 3 ∨ month = 4 ∨ month = 5 ∨ month = 6 ∨ month = 7
      ∨ month = 8 ∨ month = 9 ∨ month = 10 ∨ month = 11 ∨ month = 12 ∨ month = 13 := by omega
  rcases h with h | h | h | h | h | h | h | h | h | h | h | h | h <;> subst h <;> exact ⟨_, rfl⟩

end EthiopianDatePicker

namespace EthiopianDatePicker

/-- Every integer is `4 * m + s` with `s` in 0..3. -/
theorem int_mod4_cases (q : Int) : ∃ m : Int, q = 4 * m ∨ q = 4 * m + 1 ∨ q = 4 * m + 2 ∨ q = 4 * m + 3 :=
  ⟨q / 4, by omega⟩

/-- One century further in the century term of the Julian day number
formula. -/
theorem sdn_century_step (q : Int) :
    (q + 1) * 146097 / 4 = q * 146097 / 4 + (if (q + 1) % 4 = 0 then 36525 else 36524) := by
  obtain ⟨m, hm | hm | hm | hm⟩ := int_mod4_cases q <;> subst hm
  · rw [if_neg (by omega)]; omega
  · rw [if_neg (by omega)]; omega
  · rw [if_neg (by omega)]; omega
  · rw [if_pos (by omega)]; omega

/-- One year further in the year-of-century term of the Julian day number
formula. -/
theorem sdn_quad_step (r : Int) :
    (r + 1) * 1461 / 4 = r * 1461 / 4 + (if (r + 1) % 4 = 0 then 366 else 365) := by
  obtain ⟨m, hm | hm | hm | hm⟩ := int_mod4_cases r <;> subst hm
  · rw [if_neg (by omega)]; omega
  · rw [if_neg (by omega)]; omega
  · rw [if_neg (by omega)]; omega
  · rw [if_pos (by omega)]; omega

/-- The step of `sdn_year_step` with the year written `100 * q + r`. -/
theorem sdn_year_step_qr (q r : Int) (hr0 : 0 ≤ r) (hr1 : r < 100) :
    ((100 * q + r + 1) / 100 * 146097) / 4 + ((100 * q + r + 1) % 100 * 1461) / 4
      = (q * 146097) / 4 + (r * 1461) / 4
        + (if ((100 * q + r + 1) % 4 = 0 ∧ (100 * q + r + 1) % 100 ≠ 0) ∨ (100 * q + r + 1) % 400 = 0
            then 366 else 365) := by
  by_cases h99 : r = 99
  · subst h99
    have e1 : (100 * q + 99 + 1) / 100 = q + 1 := by omega
    have e2 : (100 * q + 99 + 1) % 100 = 0 := by omega
    have e4 : (100 * q + 99 + 1) % 400 = 0 ↔ (q + 1) % 4 = 0 := by omega
    rw [e1, e2, sdn_century_step q]
    by_cases h : (q + 1) % 4 = 0
    · rw [if_pos h, if_pos (Or.inr (e4.2 h))]; norm_num; ring
    · rw [if_neg h, if_neg (by rintro (⟨_, h2⟩ | h2); exact h2 rfl; exact h (e4.1 h2))]; norm_num; ring
  · have e1 : (100 * q + r + 1) / 100 = q := by omega
    have e2 : (100 * q + r + 1) % 100 = r + 1 := by omega
    have e3 : (100 * q + r + 1) % 4 = 0 ↔ (r + 1) % 4 = 0 := by omega
    have e4 : ¬ ((100 * q + r + 1) % 400 = 0) := by omega
    have e5 : r + 1 ≠ 0 := by omega
    rw [e1, e2, sdn_quad_step r]
    by_cases h : (r + 1) % 4 = 0
    · rw [if_pos h, if_pos (Or.inl ⟨e3.2 h, e5⟩)]; ring
    · rw [if_neg h, if_neg (by rintro (⟨h2, _⟩ | h2); exact h (e3.1 h2); exact e4 h2)]; ring

/-- One year further in the year term of the Julian day number formula. -/
theorem sdn_year_step (k : Int) :
    ((k + 1) / 100 * 146097) / 4 + ((k + 1) % 100 * 1461) / 4
      = (k / 100 * 146097) / 4 + (k % 100 * 1461) / 4
        + (if ((k + 1) % 4 = 0 ∧ (k + 1) % 100 ≠ 0) ∨ (k + 1) % 400 = 0 then 366 else 365) := by
  have hq : k = 100 * (k / 100) + k % 100 := (Int.ediv_add_emod k 100).symm
  have hr0 : 0 ≤ k % 100 := Int.emod_nonneg k (by norm_num)
  have hr1 : k % 100 < 100 := Int.emod_lt_of_pos k (by norm_num)
  have := sdn_year_step_qr (k / 100) (k % 100) hr0 hr1
  rw [← hq] at this
  exact this

/-- The Julian day number of a date from March on, with flooring division. -/
theorem gregoriantojd_from_march (m d y : Int) (hy : 1 ≤ y) (hm1 : 3 ≤ m) (hm2 : m ≤ 12)
    (hd1 : 1 ≤ d) (hd2 : d ≤ 31) :
    gregoriantojd m d y
      = ((y + 4800) / 100 * 146097) / 4 + ((y + 4800) % 100 * 1461) / 4
        + ((m - 3) * 153 + 2) / 5 + d - 32045 := by
  rw [gregoriantojd_eq m d y hy (by omega) hm2 hd1 hd2, if_pos (by omega), if_pos (by omega)]
  have a1 : (0 : Int) ≤ y + 4800 := by omega
  have a2 : (0 : Int) ≤ (y + 4800) / 100 := Int.ediv_nonneg a1 (by norm_num)
  have a3 : (0 : Int) ≤ (y + 4800) % 100 := Int.emod_nonneg _ (by norm_num)
  rw [Int.tdiv_eq_ediv a1 (by norm_num), Int.tmod_eq_emod a1 (by norm_num),
    Int.tdiv_eq_ediv (Int.mul_nonneg a2 (by norm_num)) (by norm_num),
    Int.tdiv_eq_ediv (Int.mul_nonneg a3 (by norm_num)) (by norm_num),
    Int.tdiv_eq_ediv (by omega) (by norm_num)]

/-- The Julian day number of a date of January or February, with flooring
division. -/
theorem gregoriantojd_before_march (m d y : Int) (hy : 1 ≤ y) (hm1 : 1 ≤ m) (hm2 : m ≤ 2)
    (hd1 : 1 ≤ d) (hd2 : d ≤ 31) :
    gregoriantojd m d y
      = ((y + 4799) / 100 * 146097) / 4 + ((y + 4799) % 100 * 1461) / 4
        + ((m + 9) * 153 + 2) / 5 + d - 32045 := by
  rw [gregoriantojd_eq m d y hy hm1 (by omega) hd1 hd2, if_neg (by omega), if_neg (by omega)]
  have e : y + 4800 - 1 = y + 4799 := by ring
  rw [e]
  have a1 : (0 : Int) ≤ y + 4799 := by omega
  have a2 : (0 : Int) ≤ (y + 4799) / 100 := Int.ediv_nonneg a1 (by norm_num)
  have a3 : (0 : Int) ≤ (y + 4799) % 100 := Int.emod_nonneg _ (by norm_num)
  rw [Int.tdiv_eq_ediv a1 (by norm_num), Int.tmod_eq_emod a1 (by norm_num),
    Int.tdiv_eq_ediv (Int.mul_nonneg a2 (by norm_num)) (by norm_num),
    Int.tdiv_eq_ediv (Int.mul_nonneg a3 (by norm_num)) (by norm_num),
    Int.tdiv_eq_ediv (by omega) (by norm_num)]

end EthiopianDatePicker

namespace EthiopianDatePicker

/-- What `checkdate` guarantees of its arguments. -/
theorem checkdate_bounds (month day year : Int) (hc : checkdate month day year = true) :
    1 ≤ year ∧ 1 ≤ month ∧ month ≤ 12 ∧ 1 ≤ day ∧ day ≤ 31 := by
  unfold checkdate at hc
  have h := of_decide_eq_true hc
  obtain ⟨h1, _, h3, h4, h5, h6⟩ := h
  refine ⟨h1, h3, h4, h5, ?_⟩
  by_cases c1 : month = 2
  · rw [if_pos c1] at h6
    by_cases c2 : (year % 4 = 0 ∧ year % 100 ≠ 0) ∨ year % 400 = 0
    · rw [if_pos c2] at h6; omega
    · rw [if_neg c2] at h6; omega
  · rw [if_neg c1] at h6
    by_cases c2 : month = 4 ∨ month = 6 ∨ month = 9 ∨ month = 11
    · rw [if_pos c2] at h6; omega
    · rw [if_neg c2] at h6; omega

/-- The first `$daysSinceNewYear` of the PHP `gregorianToEthiopian` on a
calendar date whose anchor year is not 0: between 0 and 365, and 365 only
before September of a year divisible by 4. -/
theorem php_daysSinceNewYear_range (year month day : Int)
    (hy : 1 ≤ year) (hm1 : 1 ≤ month) (hm2 : month ≤ 12) (hd1 : 1 ≤ day) (hd2 : day ≤ 31)
    (h : 2 ≤ year ∨ 9 ≤ month) :
    0 ≤ daysSinceNewYear year month day ∧ daysSinceNewYear year month day ≤ 365
      ∧ (daysSinceNewYear year month day = 365 → year % 4 = 0 ∧ month < 9) := by
  unfold daysSinceNewYear
  dsimp only
  by_cases c9 : month < 9
  · rw [if_pos c9]
    have hy2 : 2 ≤ year := by omega
    have e : year - 8 - 1 + 8 = year - 1 := by ring
    rw [e, gregoriantojd_from_march 9 1 (year - 1) (by omega) (by norm_num) (by norm_num)
      (by norm_num) (by norm_num)]
    have e2 : year - 1 + 4800 = year + 4799 := by ring
    rw [e2]
    by_cases c3 : 3 ≤ month
    · rw [gregoriantojd_from_march month day year hy c3 hm2 hd1 hd2]
      have hs := sdn_year_step (year + 4799)
      have e3 : year + 4799 + 1 = year + 4800 := by ring
      rw [e3] at hs
      rw [hs]
      generalize (year + 4799) / 100 * 146097 / 4 + (year + 4799) % 100 * 1461 / 4 = A
      by_cases cl : ((year + 4800) % 4 = 0 ∧ (year + 4800) % 100 ≠ 0) ∨ (year + 4800) % 400 = 0
      · rw [if_pos cl]
        have : year % 4 = 0 := by omega
        omega
      · rw [if_neg cl]
        omega
    · rw [gregoriantojd_before_march month day year hy hm1 (by omega) hd1 hd2]
      generalize (year + 4799) / 100 * 146097 / 4 + (year + 4799) % 100 * 1461 / 4 = A
      omega
  · rw [if_neg c9]
    have e : year - 8 + 8 = year := by ring
    rw [e, gregoriantojd_from_march 9 1 year hy (by norm_num) (by norm_num)
      (by norm_num) (by norm_num),
      gregoriantojd_from_march month day year hy (by omega) hm2 hd1 hd2]
    generalize (year + 4800) / 100 * 146097 / 4 + (year + 4800) % 100 * 1461 / 4 = A
    omega

/-- The result of the PHP `gregorianToEthiopian` when the first
`$daysSinceNewYear` is between 0 and 389. -/
theorem php_gregorianToEthiopian_of_range (year month day : Int)
    (h0 : 0 ≤ daysSinceNewYear year month day) (h1 : daysSinceNewYear year month day ≤ 389) :
    gregorianToEthiopian year month day
      = [if month < 9 then year - 8 - 1 else year - 8,
          daysSinceNewYear year month day / 30 + 1,
          (daysSinceNewYear year month day).tmod 30 + 1] := by
  have hn : decide (daysSinceNewYear year month day < 0) = false := by
    rw [decide_eq_false_iff_not]; omega
  have hm : ¬ (daysSinceNewYear year month day / 30 + 1 > 13) := by omega
  unfold daysSinceNewYear at hn hm
  dsimp only at hn hm
  unfold gregorianToEthiopian daysSinceNewYear
  dsimp only
  rw [hn]
  simp only [Bool.false_eq_true, if_false]
  rw [if_neg hm]

end EthiopianDatePicker

/-! ## The claims on the PHP class and on the day arithmetic of the conversions -/

namespace EthiopianDatePicker

/-- C21: for every date `[year, month, day]` with month in 1..13 and every
language, `formatDate` with format "long" is the day, a blank, the month name,
a blank and the year, the month name being the entry of key `month` of
`getAmharicMonths()` for the language "amharic" and of `getEnglishMonths()`
otherwise; with format "short" it is year, month and day joined by "-" in plain
decimal.  Both tables have the keys 1..13, and for `[2016, 1, 1]` the three
strings are "1 Meskerem 2016", "1 መስከረም 2016" and "2016-1-1". -/
theorem php_formatDate_long_short (year month day : Int) (language : String)
    (h1 : 1 ≤ month) (h2 : month ≤ 13) :
    (∃ monthName,
      (if language = "amharic" then getAmharicMonths else getEnglishMonths).lookup month
        = some monthName
      ∧ formatDate (year, month, day) language "long"
        = toString day ++ " " ++ monthName ++ " " ++ toString year)
    ∧ formatDate (year, month, day) language "short"
      = toString year ++ "-" ++ toString month ++ "-" ++ toString day
    ∧ getAmharicMonths.map (fun p => p.1) = [1, 2, 3, 4, 5, 6, 7, 8, 9, 10, 11, 12, 13]
    ∧ getEnglishMonths.map (fun p => p.1) = [1, 2, 3, 4, 5, 6, 7, 8, 9, 10, 11, 12, 13]
    ∧ formatDate (2016, 1, 1) "english" "long" = "1 Meskerem 2016"
    ∧ formatDate (2016, 1, 1) "amharic" "long" = "1 መስከረም 2016"
    ∧ formatDate (2016, 1, 1) "english" "short" = "2016-1-1" := by
  refine ⟨?_, ?_, by decide, by decide, by decide, by decide, by decide⟩
  · by_cases hl : language = "amharic"
    · obtain ⟨name, hn⟩ := lookup_amharic month h1 h2
      refine ⟨name, by rw [if_pos hl]; exact hn, ?_⟩
      unfold formatDate
      simp only [if_pos hl, hn, Option.getD_some, if_true]
    · obtain ⟨name, hn⟩ := lookup_english month h1 h2
      refine ⟨name, by rw [if_neg hl]; exact hn, ?_⟩
      unfold formatDate
      simp only [if_neg hl, hn, Option.getD_some, if_true]
  · unfold formatDate
    have : ¬ ("short" = "long") := by decide
    simp only [if_neg this]

/-- The date `[2015, 13, 6]` in the short format, an instance of C21. -/
theorem php_formatDate_long_short_witness :
    formatDate (2015, 13, 6) "amharic" "short"
      = toString (2015 : Int) ++ "-" ++ toString (13 : Int) ++ "-" ++ toString (6 : Int) :=
  (php_formatDate_long_short 2015 13 6 "amharic" (by decide) (by decide)).2.1

/-- C22 (code defect): `ethiopianToGregorian(2016, 1, 1)` returns the pieces
of the string "4/2/2016" that `jdtogregorian` writes as month/day/year: the
array is `["4", "2", "2016"]`, month first and year last, where the docblock
promises `[year, month, day]`. -/
theorem php_ethiopianToGregorian_order :
    ethiopianToGregorian 2016 1 1 = ["4", "2", "2016"]
    ∧ SdnToGregorian ((2016 - 1) * 365 + (2016 - 1) / 4 + (1 - 1) * 30 + (1 - 1) + 78 + 1721425)
        = (2016, 4, 2)
    ∧ jdtogregorian 2457481 = "4/2/2016" := by
  decide

/-- C23 (code defect): the round trip fails at the Ethiopian date
`[2016, 1, 1]`: `ethiopianToGregorian` computes the Julian day number 2457481,
the Gregorian date 2 April 2016, and `gregorianToEthiopian(2016, 4, 2)` returns
`[2007, 8, 5]`. -/
theorem php_roundTrip_2016_1_1 :
    ethiopianToGregorian 2016 1 1 = ["4", "2", "2016"]
    ∧ SdnToGregorian 2457481 = (2016, 4, 2)
    ∧ gregoriantojd 4 2 2016 = 2457481
    ∧ checkdate 4 2 2016 = true
    ∧ gregorianToEthiopian 2016 4 2 = [2007, 8, 5] := by
  decide

/-- C30 (counterexample): 1 January of year 1 is a date `checkdate` accepts,
yet its anchor `gregoriantojd(9, 1, 0)` is 0, `$daysSinceNewYear` is 1721426
and the month clamp runs, giving `[-8, 13, 5]`; 31 August of the years 8 and 4
gives day 6 of month 13 in the years -1 and -5, which `isLeapYear` does not
take for leap years. -/
theorem php_gregorianToEthiopian_year_1 :
    checkdate 1 1 1 = true
    ∧ gregoriantojd 9 1 0 = 0
    ∧ daysSinceNewYear 1 1 1 = 1721426
    ∧ gregorianToEthiopian 1 1 1 = [-8, 13, 5]
    ∧ checkdate 8 31 8 = true
    ∧ daysSinceNewYear 8 8 31 = 365
    ∧ gregorianToEthiopian 8 8 31 = [-1, 13, 6]
    ∧ isLeapYear (-1) = false
    ∧ checkdate 8 31 4 = true
    ∧ gregorianToEthiopian 4 8 31 = [-5, 13, 6]
    ∧ isLeapYear (-5) = false := by
  decide

/-- C30 (amended): for every date `checkdate` accepts, January to August of
year 1 apart, the first `$daysSinceNewYear` of `gregorianToEthiopian` is
between 0 and 365, so neither the re-anchoring nor the month clamp runs: the
result is `[Y, M, D]` with `Y` the year less 9 before September and less 8 from
September on, `M = floor(daysSinceNewYear / 30) + 1` in 1..13 and
`D = daysSinceNewYear % 30 + 1` at least 1, at most 30 for `M ≤ 12` and at
most 6 for `M = 13`; outside the Gregorian years 4 and 8 the day of month 13 is
at most 6 when `isLeapYear(Y)` and at most 5 otherwise. -/
theorem php_gregorianToEthiopian_range (year month day : Int)
    (hc : checkdate month day year = true) (h : 2 ≤ year ∨ 9 ≤ month) :
    0 ≤ daysSinceNewYear year month day ∧ daysSinceNewYear year month day ≤ 365
    ∧ ∃ Y M D : Int, gregorianToEthiopian year month day = [Y, M, D]
        ∧ Y = (if month < 9 then year - 9 else year - 8)
        ∧ M = daysSinceNewYear year month day / 30 + 1
        ∧ D = (daysSinceNewYear year month day).tmod 30 + 1
        ∧ 1 ≤ M ∧ M ≤ 13 ∧ 1 ≤ D ∧ (M ≤ 12 → D ≤ 30) ∧ (M = 13 → D ≤ 6)
        ∧ (M = 13 → year ≠ 4 → year ≠ 8 → D ≤ (if isLeapYear Y then 6 else 5)) := by
  obtain ⟨hy, hm1, hm2, hd1, hd2⟩ := checkdate_bounds month day year hc
  obtain ⟨h0, h1, h365⟩ := php_daysSinceNewYear_range year month day hy hm1 hm2 hd1 hd2 h
  have hres := php_gregorianToEthiopian_of_range year month day h0 (by omega)
  have hY : (if month < 9 then year - 8 - 1 else year - 8)
      = (if month < 9 then year - 9 else year - 8) := by
    by_cases c : month < 9
    · rw [if_pos c, if_pos c]; ring
    · rw [if_neg c, if_neg c]
  rw [hY] at hres
  have ht : (daysSinceNewYear year month day).tmod 30 = daysSinceNewYear year month day % 30 :=
    Int.tmod_eq_emod h0 (by norm_num)
  refine ⟨h0, h1, _, _, _, hres, rfl, rfl, rfl, ?_⟩
  rw [ht]
  generalize daysSinceNewYear year month day = n at h0 h1 h365
  refine ⟨by omega, by omega, by omega, by omega, by omega, ?_⟩
  intro hM h4 h8
  by_cases c : n = 365
  · obtain ⟨hy4, hm9⟩ := h365 c
    rw [if_pos hm9]
    have hl : isLeapYear (year - 9) = true := by
      unfold isLeapYear
      rw [Int.tmod_eq_emod (by omega) (by norm_num)]
      have : (year - 9) % 4 = 3 := by omega
      rw [this]
      rfl
    rw [hl]
    simp only [if_true]
    omega
  · have : n % 30 + 1 ≤ 5 := by omega
    by_cases cl : isLeapYear (if month < 9 then year - 9 else year - 8) = true
    · rw [if_pos cl]; omega
    · rw [if_neg cl]; exact this

/-- The date 11 September 2023, an instance of C30: the result is
`[2015, 1, 11]`. -/
theorem php_gregorianToEthiopian_range_witness :
    checkdate 9 11 2023 = true ∧ gregorianToEthiopian 2023 9 11 = [2015, 1, 11]
    ∧ ∃ Y M D : Int, gregorianToEthiopian 2023 9 11 = [Y, M, D] ∧ 1 ≤ M ∧ M ≤ 13 :=
  ⟨by decide, by decide,
    by
      obtain ⟨_, _, Y, M, D, h1, _, _, _, h2, h3, _⟩ :=
        php_gregorianToEthiopian_range 2023 9 11 (by decide) (Or.inl (by decide))
      exact ⟨Y, M, D, h1, h2, h3⟩⟩

end EthiopianDatePicker

namespace EthiopianCalendar
open JS

/-- C24: the two implementations disagree on a valid Gregorian date: for
11 September 2023, which `checkdate` accepts and which the `Date` built from
it carries in its fields, the JS `gregorianToEthiopian` returns (2016, 1, 1)
and the PHP one returns another triple. -/
theorem js_php_disagree :
    ∃ year month day : Int, EthiopianDatePicker.checkdate month day year = true
      ∧ ∃ r, gregorianToEthiopian (mkDate year (month - 1) day) = .ok r
        ∧ getFullYear (mkDate year (month - 1) day) = some year
        ∧ getMonth (mkDate year (month - 1) day) = some (month - 1)
        ∧ getDate (mkDate year (month - 1) day) = some day
        ∧ [some r.year, r.month, r.day]
          ≠ (EthiopianDatePicker.gregorianToEthiopian year month day).map some :=
  ⟨2023, 9, 11, by decide,
    { year := 2016, month := some 1, day := some 1, weekDay := 1 },
    by decide, by decide, by decide, by decide, by decide⟩

/-- C25 (code defect): `ethiopianToGregorian(2016, 1, 1)` is 15 September 2023
and not the anchor 11 September of the non-leap year 2023;
`ethiopianToGregorian(2017, 1, 1)` is 13 September 2024 and not the anchor
12 September of the leap year 2024. -/
theorem ethiopianToGregorian_newYear_2016 :
    isGregorianLeapYear (2016 + 7) = false
    ∧ ethiopianToGregorian 2016 1 1 = .ok (mkDate 2023 8 15)
    ∧ mkDate 2023 8 15 ≠ mkDate 2023 8 11
    ∧ isGregorianLeapYear (2017 + 7) = true
    ∧ ethiopianToGregorian 2017 1 1 = .ok (mkDate 2024 8 13)
    ∧ mkDate 2024 8 13 ≠ mkDate 2024 8 12 := by
  decide

/-- C26 (counterexample): for the valid Ethiopian date (300000, 1, 1) the
variable `actualGregYear` is 300007 and the returned `Date` is invalid, with no
year at all; for the valid date (1, 1, 1) `actualGregYear` is 8 and the
returned `Date` lies in the year 1908. -/
theorem ethiopianToGregorian_year_300000 :
    validateEthiopianDate 300000 1 1 = .ok { valid := true, error := none }
    ∧ actualGregYear 300000 1 1 = 300007
    ∧ ethiopianToGregorian 300000 1 1 = .ok none
    ∧ getFullYear none = none
    ∧ validateEthiopianDate 1 1 1 = .ok { valid := true, error := none }
    ∧ actualGregYear 1 1 1 = 8
    ∧ (ethiopianToGregorian 1 1 1).map getFullYear = .ok (some 1908) := by
  decide

/-- C26 (amended): for every year and every month and day the month has,
`ethiopianToGregorian` returns January 1 of `actualGregYear` moved by `setDate`
to the day `gregDayOfYear`; `actualGregYear` is `year + 7` or `year + 8`, and
after the one subtraction `gregDayOfYear` is at least 1 and at most the number
of days (366 or 365) of `actualGregYear`.  For the years 93..275000 the
returned `Date` is valid, lies in the Gregorian year `actualGregYear` and is
its day number `gregDayOfYear`. -/
theorem ethiopianToGregorian_dayOfYear (year month day : Int) (h1 : 1 ≤ month)
    (h2 : month ≤ 13) (h3 : 1 ≤ day)
    (h4 : day ≤ (if month = 13 then (if isEthiopianLeapYear year then 6 else 5) else 30)) :
    ethiopianToGregorian year month day
      = .ok (setDate (mkDate (actualGregYear year month day) 0 1)
          (gregDayOfYear year month day))
    ∧ (actualGregYear year month day = year + 7 ∨ actualGregYear year month day = year + 8)
    ∧ 1 ≤ gregDayOfYear year month day
    ∧ gregDayOfYear year month day
        ≤ (if isGregorianLeapYear (actualGregYear year month day) then 366 else 365)
    ∧ (93 ≤ year → year ≤ 275000 →
        ∃ t, ethiopianToGregorian year month day = .ok (some t)
          ∧ YearFromTime t = actualGregYear year month day
          ∧ DayWithinYear t + 1 = gregDayOfYear year month day) := by
  have hb := getDaysInEthiopianMonth_bounds month year
  obtain ⟨c, len, hcl, hcase⟩ := gregDayOfYear_cases year month day
  have hlenA : (365 : Int) ≤ (if isGregorianLeapYear (actualGregYear year month day)
        then 366 else 365) := by
    split_ifs <;> simp
  have hbound : 1 ≤ gregDayOfYear year month day
      ∧ gregDayOfYear year month day
        ≤ (if isGregorianLeapYear (actualGregYear year month day) then 366 else 365) := by
    rcases hcase with ⟨ho, ha, hg⟩ | ⟨ho, ha, hg⟩
    · rw [hg, ha]
      rcases hcl with ⟨a, b, d⟩ | ⟨a, b, d⟩
      · rw [a]; simp only [if_true]; omega
      · rw [a]; simp only [Bool.false_eq_true, if_false]; omega
    · rw [hg]
      generalize (if isGregorianLeapYear (actualGregYear year month day) then (366 : Int)
        else 365) = lenA at hlenA ⊢
      generalize (if month = 13 then (if isEthiopianLeapYear year then (6 : Int) else 5)
        else 30) = mx at h4 hb
      rcases hcl with ⟨_, b, d⟩ | ⟨_, b, d⟩ <;> omega
  refine ⟨ethiopianToGregorian_parts year month day h1 h2 h3 h4, ?_, hbound.1, hbound.2, ?_⟩
  · rcases hcase with ⟨_, ha, _⟩ | ⟨_, ha, _⟩
    · left; exact ha
    · right; rw [ha]; omega
  · intro hy1 hy2
    obtain ⟨c', len', hcl', hd⟩ :=
      ethiopianToGregorian_dayNumber year month day (by omega) hy2 h1 h2 h3 h4
    have hcc : c' = c ∧ len' = len := by
      rcases hcl with ⟨a, b, d⟩ | ⟨a, b, d⟩ <;> rcases hcl' with ⟨a', b', d'⟩ | ⟨a', b', d'⟩
      · omega
      · rw [a] at a'; cases a'
      · rw [a] at a'; cases a'
      · omega
    obtain ⟨e1, e2⟩ := hcc
    subst e1 e2
    have hleapA := isGregorianLeapYear_iff (actualGregYear year month day)
    have hdaysA : DaysInYear (actualGregYear year month day)
        = (if isGregorianLeapYear (actualGregYear year month day) then 366 else 365) := by
      rcases DaysInYear_pos (actualGregYear year month day) with h | h
      · have : isGregorianLeapYear (actualGregYear year month day) = false := by
          rw [← Bool.not_eq_true, hleapA, h]; norm_num
        rw [this, h]; rfl
      · rw [hleapA.mpr h, h]; rfl
    rcases hcase with ⟨ho, ha, hg⟩ | ⟨ho, ha, hg⟩
    · rcases hd with ⟨_, r⟩ | ⟨ho', _⟩
      · rw [if_neg (by omega)] at r
        rw [← ha, ← hg] at r
        have e : DayFromYear (actualGregYear year month day) + gregDayOfYear year month day - 1
            = DayFromYear (actualGregYear year month day)
              + (gregDayOfYear year month day - 1) := by omega
        rw [e] at r
        refine ⟨_, r, YearFromTime_add _ _ (by omega) (by rw [hdaysA]; omega), ?_⟩
        rw [DayWithinYear_add _ _ (by omega) (by rw [hdaysA]; omega)]
        omega
      · omega
    · rcases hd with ⟨ho', _⟩ | ⟨_, r⟩
      · omega
      · rw [if_neg (by omega)] at r
        rw [← ha, ← hg] at r
        have e : DayFromYear (actualGregYear year month day) + gregDayOfYear year month day - 1
            = DayFromYear (actualGregYear year month day)
              + (gregDayOfYear year month day - 1) := by omega
        rw [e] at r
        refine ⟨_, r, YearFromTime_add _ _ (by omega) (by rw [hdaysA]; omega), ?_⟩
        rw [DayWithinYear_add _ _ (by omega) (by rw [hdaysA]; omega)]
        omega

/-- The date (2016, 1, 1), an instance of C26. -/
theorem ethiopianToGregorian_dayOfYear_witness :
    (93 : Int) ≤ 2016 ∧ (2016 : Int) ≤ 275000
      ∧ ∃ t, ethiopianToGregorian 2016 1 1 = .ok (some t)
          ∧ YearFromTime t = actualGregYear 2016 1 1
          ∧ DayWithinYear t + 1 = gregDayOfYear 2016 1 1 :=
  ⟨by decide, by decide,
    (ethiopianToGregorian_dayOfYear 2016 1 1 (by decide) (by decide) (by decide)
      (by decide)).2.2.2.2 (by decide) (by decide)⟩

/-- C27 (code defect): `ethiopianToGregorian` sends the last day (2016, 13, 5)
of the year 2016 and its successor (2017, 1, 1) to the same day, so it is not
injective; and it sends (2013, 13, 5) and its successor (2014, 1, 1) to days
that are three days apart. -/
theorem ethiopianToGregorian_not_injective :
    validateEthiopianDate 2016 13 5 = .ok { valid := true, error := none }
    ∧ getDaysInEthiopianMonth 13 2016 = .ok 5
    ∧ validateEthiopianDate 2017 1 1 = .ok { valid := true, error := none }
    ∧ ethiopianToGregorian 2016 13 5 = .ok (some 19979)
    ∧ ethiopianToGregorian 2017 1 1 = .ok (some 19979)
    ∧ getDaysInEthiopianMonth 13 2013 = .ok 5
    ∧ ethiopianToGregorian 2013 13 5 = .ok (some 18882)
    ∧ ethiopianToGregorian 2014 1 1 = .ok (some 18885) := by
  decide

/-- C28 (counterexample): on 1 January of the year 100 the variable
`daysSinceNewYear` is negative; on 1 January of the year 0 it is 694073, the
month exceeds 13 and the clamp runs; on the first day of the `Date` range (in
the year -271821) it is `NaN`. -/
theorem gregorianToEthiopian_daysSinceNewYear_year_100 :
    TimeClip (-683003) = some (-683003)
    ∧ (YearFromTime (-683003), MonthFromTime (-683003), DateFromTime (-683003)) = (100, 0, 1)
    ∧ daysSinceNewYear (-683003) = some (-693848)
    ∧ TimeClip (-719528) = some (-719528)
    ∧ (YearFromTime (-719528), MonthFromTime (-719528), DateFromTime (-719528)) = (0, 0, 1)
    ∧ daysSinceNewYear (-719528) = some 694073
    ∧ gregorianToEthiopian (some (-719528))
        = .ok { year := -8, month := some 13, day := some 693714, weekDay := 6 }
    ∧ TimeClip (-100000000) = some (-100000000)
    ∧ YearFromTime (-100000000) = -271821
    ∧ daysSinceNewYear (-100000000) = none
    ∧ gregorianToEthiopian (some (-100000000))
        = .ok { year := -271829, month := none, day := none, weekDay := 2 } := by
  decide

/-- C28 (amended): for every valid `Date` of a year from -271820 on other than
the years 0 and 100, the variable `daysSinceNewYear` of `gregorianToEthiopian`
is a number between 0 and 366, so `floor(daysSinceNewYear / 30) + 1` is at
most 13; the comparison `currentDate < newYearDate` holds exactly when the
branch test (month < 9, or month 9 and day before the new-year day) does; and
the clamp does not run: the result has the month
`floor(daysSinceNewYear / 30) + 1` and the day `daysSinceNewYear % 30 + 1`. -/
theorem gregorianToEthiopian_daysSinceNewYear (t : Int) (ht : TimeClip t = some t)
    (hlow : -271820 ≤ YearFromTime t) (h0 : YearFromTime t ≠ 0)
    (h100 : YearFromTime t ≠ 100) :
    ∃ n, daysSinceNewYear t = some n ∧ 0 ≤ n ∧ n ≤ 366 ∧ n / 30 + 1 ≤ 13
      ∧ (dateLt (mkDate (YearFromTime t) (MonthFromTime t + 1 - 1) (DateFromTime t))
            (mkDate (YearFromTime t) 8
              (if isGregorianLeapYear (YearFromTime t) then 12 else 11)) = true
          ↔ (MonthFromTime t + 1 < 9 ∨ (MonthFromTime t + 1 = 9
              ∧ DateFromTime t < (if isGregorianLeapYear (YearFromTime t) then 12 else 11))))
      ∧ gregorianToEthiopian (some t) = .ok {
          year := if MonthFromTime t + 1 < 9 ∨ (MonthFromTime t + 1 = 9
              ∧ DateFromTime t < (if isGregorianLeapYear (YearFromTime t) then 12 else 11))
            then YearFromTime t - 8 else YearFromTime t - 7
          month := some (n / 30 + 1)
          day := some (n.tmod 30 + 1)
          weekDay := WeekDay t } := by
  obtain ⟨J, l, off, off', hl, hoff', hleap, hL, hcur, hnew, hprev⟩ :=
    gregorianToEthiopian_dates t ht hlow h0 h100
  obtain ⟨hn0, hn1⟩ := DayWithinYear_bounds t
  obtain ⟨_, hlen⟩ := leapOf_cases (YearFromTime t)
  have hLL : InLeapYear t = leapOf (YearFromTime t) := rfl
  rw [hlen, ← hLL, hL] at hn1
  have hoffe : (if isGregorianLeapYear (YearFromTime t) then (12 : Int) else 11) = off := by
    rcases hleap with ⟨a, _, c⟩ | ⟨a, _, c⟩ <;> rw [a, c] <;> rfl
  have hoffb : 11 ≤ off ∧ off ≤ 12 := by
    rcases hleap with ⟨_, _, c⟩ | ⟨_, _, c⟩ <;> omega
  have hbr := gte_year_cond t off (by omega) (by omega)
  rw [MakeDay_september, ← hLL, hL] at hbr
  have hday := Day_eq t
  have hbr2 : (MonthFromTime t + 1 < 9 ∨ (MonthFromTime t + 1 = 9 ∧ DateFromTime t < off))
      ↔ DayWithinYear t < 242 + l + off := by
    rw [hbr]
    constructor <;> intro h <;> omega
  have hlt : dateLt (mkDate (YearFromTime t) (MonthFromTime t + 1 - 1) (DateFromTime t))
      (mkDate (YearFromTime t) 8 (if isGregorianLeapYear (YearFromTime t) then 12 else 11))
      = decide (DayWithinYear t < 242 + l + off) := by
    rw [hcur, hnew]
    unfold dateLt
    simp only [add_lt_add_iff_left]
  have hds : daysSinceNewYear t
      = some (if DayWithinYear t < 242 + l + off then DayWithinYear t + 123 - off'
          else DayWithinYear t - (242 + l + off)) := by
    unfold daysSinceNewYear
    dsimp only
    rw [hlt]
    by_cases hc : DayWithinYear t < 242 + l + off
    · rw [if_pos (by simpa using hc), if_pos hc, hcur, hprev]
      unfold daysBetween
      simp only [Option.some.injEq]
      omega
    · rw [if_neg (by simpa using hc), if_neg hc, hcur, hnew]
      unfold daysBetween
      simp only [Option.some.injEq]
      omega
  have hnb : 0 ≤ (if DayWithinYear t < 242 + l + off then DayWithinYear t + 123 - off'
        else DayWithinYear t - (242 + l + off))
      ∧ (if DayWithinYear t < 242 + l + off then DayWithinYear t + 123 - off'
        else DayWithinYear t - (242 + l + off)) ≤ 366 := by
    split_ifs <;> omega
  have hg : gregorianToEthiopian (some t) = .ok {
      year := if MonthFromTime t + 1 < 9 ∨ (MonthFromTime t + 1 = 9
          ∧ DateFromTime t < (if isGregorianLeapYear (YearFromTime t) then 12 else 11))
        then YearFromTime t - 8 else YearFromTime t - 7
      month := if (match (daysSinceNewYear t).map (fun n => n / 30 + 1) with
          | some m => decide (m > 13)
          | none => false) then some 13
        else (daysSinceNewYear t).map (fun n => n / 30 + 1)
      day := if (match (daysSinceNewYear t).map (fun n => n / 30 + 1) with
          | some m => decide (m > 13)
          | none => false) then (daysSinceNewYear t).map (fun n => n - 360 + 1)
        else (daysSinceNewYear t).map (fun n => n.tmod 30 + 1)
      weekDay := WeekDay t } := rfl
  generalize (if DayWithinYear t < 242 + l + off then DayWithinYear t + 123 - off'
        else DayWithinYear t - (242 + l + off)) = n at hds hnb
  refine ⟨n, hds, hnb.1, hnb.2, by omega, ?_, ?_⟩
  · rw [hlt, hoffe, hbr2]
    exact decide_eq_true_iff
  · rw [hg, hds]
    have hm : ¬ (n / 30 + 1 > 13) := by omega
    simp only [Option.map_some', decide_eq_true_eq, hm, if_false, Bool.false_eq_true]

/-- The `Date` 11 September 2023 (day number 19611), an instance of C28. -/
theorem gregorianToEthiopian_daysSinceNewYear_witness :
    TimeClip 19611 = some 19611 ∧ YearFromTime 19611 = 2023
      ∧ ∃ n, daysSinceNewYear 19611 = some n ∧ 0 ≤ n ∧ n ≤ 366 ∧ n / 30 + 1 ≤ 13 :=
  ⟨by decide, by decide,
    by
      obtain ⟨n, h1, h2, h3, h4, _⟩ :=
        gregorianToEthiopian_daysSinceNewYear 19611 (by decide) (by decide) (by decide)
          (by decide)
      exact ⟨n, h1, h2, h3, h4⟩⟩

/-- C29 (code defect): the day before the anchor of 2023, 10 September 2023,
is returned as (2015, 13, 5) although month 13 of 2015 has 6 days; the day
before the anchor of 2024, 11 September 2024, is returned as (2016, 13, 7)
although month 13 of 2016 has 5 days. -/
theorem gregorianToEthiopian_day_before_newYear :
    isGregorianLeapYear 2023 = false
    ∧ gregorianToEthiopian (mkDate 2023 8 10)
        = .ok { year := 2015, month := some 13, day := some 5, weekDay := 0 }
    ∧ getDaysInEthiopianMonth 13 2015 = .ok 6
    ∧ isGregorianLeapYear 2024 = true
    ∧ gregorianToEthiopian (mkDate 2024 8 11)
        = .ok { year := 2016, month := some 13, day := some 7, weekDay := 3 }
    ∧ getDaysInEthiopianMonth 13 2016 = .ok 5 := by
  decide

end EthiopianCalendar

/-! ## The claims on the time picker -/

namespace EthiopianTimePicker

/-- The Gregorian hour of `confirm` in the Ethiopian mode. -/
theorem confirm_hours_formula (options : Options) (picker : State)
    (hU : options.useEthiopianTime = true) :
    (confirm options picker).gregorian.hours
      = (picker.hours.tmod 12 + 6 + (if picker.period = "ማታ" then 12 else 0)).tmod 24 := by
  unfold confirm
  simp only [hU, if_true]
  by_cases hp : picker.period = "ማታ"
  · simp only [hp, decide_True, if_true]
  · simp only [hp, decide_False, if_false, add_zero, Bool.false_eq_true]

/-- The state `parseInputValue` sets in the Ethiopian mode. -/
theorem parseInputValue_ethiopian (options : Options) (gHour gMin : Int)
    (hU : options.useEthiopianTime = true) :
    parseInputValue options gHour gMin
      = { hours := if (gHour - 6 + 24).tmod 12 = 0 then 12 else (gHour - 6 + 24).tmod 12
          minutes := gMin / 5 * 5
          period := if gHour ≥ 6 ∧ gHour < 18 then "ቀን" else "ማታ" } := by
  unfold parseInputValue
  simp only [hU, if_true]

/-- C31: in the Ethiopian mode, for every hour 1..12 of the picker and every
period, the Gregorian hour `confirm` reports is
`((hours % 12) + 6 + (12 if the period is ማታ else 0)) % 24` and lies in 0..23;
it is 6 for 12 ቀን, 12 for 6 ቀን, 18 for 12 ማታ and 0 for 6 ማታ, as the comment
in `confirm` says. -/
theorem confirm_gregorian_hours (options : Options) (picker : State)
    (hU : options.useEthiopianTime = true) (h1 : 1 ≤ picker.hours) (h2 : picker.hours ≤ 12) :
    (confirm options picker).gregorian.hours
        = (picker.hours % 12 + 6 + (if picker.period = "ማታ" then 12 else 0)) % 24
    ∧ 0 ≤ (confirm options picker).gregorian.hours
    ∧ (confirm options picker).gregorian.hours ≤ 23
    ∧ (∀ minutes : Int,
        (confirm options { hours := 12, minutes := minutes, period := "ቀን" }).gregorian.hours = 6
        ∧ (confirm options { hours := 6, minutes := minutes, period := "ቀን" }).gregorian.hours = 12
        ∧ (confirm options { hours := 12, minutes := minutes, period := "ማታ" }).gregorian.hours
            = 18
        ∧ (confirm options { hours := 6, minutes := minutes, period := "ማታ" }).gregorian.hours
            = 0) := by
  have e1 : picker.hours.tmod 12 = picker.hours % 12 :=
    Int.tmod_eq_emod (by omega) (by norm_num)
  have hb : 0 ≤ picker.hours % 12 + 6 + (if picker.period = "ማታ" then 12 else 0) := by
    split_ifs <;> omega
  have e2 : (picker.hours % 12 + 6 + (if picker.period = "ማታ" then 12 else 0)).tmod 24
      = (picker.hours % 12 + 6 + (if picker.period = "ማታ" then 12 else 0)) % 24 :=
    Int.tmod_eq_emod hb (by norm_num)
  rw [confirm_hours_formula options picker hU, e1, e2]
  refine ⟨rfl, by omega, by omega, ?_⟩
  intro minutes
  refine ⟨?_, ?_, ?_, ?_⟩ <;> rw [confirm_hours_formula options _ hU] <;> dsimp only
    <;> decide

/-- The picker at 6 ማታ, an instance of C31: the Gregorian hour is at most 23. -/
theorem confirm_gregorian_hours_witness :
    (confirm { twelveHour := true, useEthiopianTime := true }
        { hours := 6, minutes := 0, period := "ማታ" }).gregorian.hours = 0
    ∧ (confirm { twelveHour := true, useEthiopianTime := true }
        { hours := 6, minutes := 0, period := "ማታ" }).gregorian.hours ≤ 23 :=
  ⟨by decide,
    (confirm_gregorian_hours { twelveHour := true, useEthiopianTime := true }
      { hours := 6, minutes := 0, period := "ማታ" } rfl (by decide) (by decide)).2.2.1⟩

/-- C32: in the Ethiopian mode, for every Gregorian hour 0..23 of the current
time, `parseInputValue` sets the hour `(gHour - 6 + 24) % 12` with 0 replaced by
12, which lies in 1..12, and the period ቀን exactly when `6 ≤ gHour < 18`
(ማታ otherwise); `confirm` on that state reports the Gregorian hour `gHour`
again. -/
theorem parseInputValue_confirm_roundTrip (options : Options) (gHour gMin : Int)
    (hU : options.useEthiopianTime = true) (h0 : 0 ≤ gHour) (h1 : gHour ≤ 23) :
    (parseInputValue options gHour gMin).hours
        = (if (gHour - 6 + 24) % 12 = 0 then 12 else (gHour - 6 + 24) % 12)
    ∧ (parseInputValue options gHour gMin).period
        = (if 6 ≤ gHour ∧ gHour < 18 then "ቀን" else "ማታ")
    ∧ 1 ≤ (parseInputValue options gHour gMin).hours
    ∧ (parseInputValue options gHour gMin).hours ≤ 12
    ∧ (confirm options (parseInputValue options gHour gMin)).gregorian.hours = gHour := by
  rw [confirm_hours_formula options _ hU, parseInputValue_ethiopian options gHour gMin hU]
  dsimp only
  have e1 : (gHour - 6 + 24).tmod 12 = (gHour - 6 + 24) % 12 :=
    Int.tmod_eq_emod (by omega) (by norm_num)
  rw [e1]
  refine ⟨rfl, rfl, ?_, ?_, ?_⟩
  · split_ifs <;> omega
  · split_ifs <;> omega
  · by_cases hd : 6 ≤ gHour ∧ gHour < 18
    · have hp : ¬ (("ቀን" : String) = "ማታ") := by decide
      rw [if_pos hd, if_neg hp]
      by_cases hz : (gHour - 6 + 24) % 12 = 0
      · rw [if_pos hz]
        have : gHour = 6 := by omega
        subst this
        decide
      · rw [if_neg hz]
        have e2 : ((gHour - 6 + 24) % 12).tmod 12 = gHour - 6 := by
          rw [Int.tmod_eq_emod (by omega) (by norm_num)]; omega
        rw [e2, Int.tmod_eq_emod (by omega) (by norm_num)]
        omega
    · rw [if_neg hd, if_pos rfl]
      by_cases hz : (gHour - 6 + 24) % 12 = 0
      · rw [if_pos hz]
        have : gHour = 18 := by omega
        subst this
        decide
      · rw [if_neg hz]
        have e2 : ((gHour - 6 + 24) % 12).tmod 12 = (gHour - 6 + 24) % 12 := by
          rw [Int.tmod_eq_emod (by omega) (by norm_num)]; omega
        rw [e2, Int.tmod_eq_emod (by omega) (by norm_num)]
        omega

/-- The Gregorian hour 0, an instance of C32: it becomes 6 ማታ and comes back
as 0. -/
theorem parseInputValue_confirm_roundTrip_witness :
    parseInputValue { twelveHour := true, useEthiopianTime := true } 0 0
        = { hours := 6, minutes := 0, period := "ማታ" }
    ∧ (confirm { twelveHour := true, useEthiopianTime := true }
        (parseInputValue { twelveHour := true, useEthiopianTime := true } 0 0)).gregorian.hours
        = 0 :=
  ⟨by decide,
    (parseInputValue_confirm_roundTrip { twelveHour := true, useEthiopianTime := true } 0 0 rfl
      (by decide) (by decide)).2.2.2.2⟩

/-- C33 (code defect): in the Ethiopian mode, for every minute of the current
time (0..59 and any other integer), `parseInputValue` sets the minutes to the multiple of 5 at or
below `gMin`, that is `gMin - gMin % 5`: it rounds down.  That is the nearest
multiple of 5 when `gMin % 5` is at most 2; when `gMin % 5` is 3 or 4 the next
multiple of 5 is nearer, so the minutes are not `gMin` rounded to the nearest
multiple of 5 as the comment says. -/
theorem parseInputValue_minutes_floor (options : Options) (gHour gMin : Int)
    (hU : options.useEthiopianTime = true) :
    (parseInputValue options gHour gMin).minutes = gMin - gMin % 5
    ∧ (parseInputValue options gHour gMin).minutes ≤ gMin
    ∧ gMin < (parseInputValue options gHour gMin).minutes + 5
    ∧ (gMin % 5 ≤ 2 →
        gMin - (parseInputValue options gHour gMin).minutes
          < (parseInputValue options gHour gMin).minutes + 5 - gMin)
    ∧ (3 ≤ gMin % 5 →
        (parseInputValue options gHour gMin).minutes + 5 - gMin
          < gMin - (parseInputValue options gHour gMin).minutes) := by
  rw [parseInputValue_ethiopian options gHour gMin hU]
  dsimp only
  refine ⟨by omega, by omega, by omega, ?_, ?_⟩ <;> intro h <;> omega

/-- The minute 3, the failing input of C33: the minutes are set to 0, and 5 is
nearer to 3 than 0 is. -/
theorem parseInputValue_minutes_floor_witness :
    (parseInputValue { twelveHour := true, useEthiopianTime := true } 10 3).minutes = 0
    ∧ (parseInputValue { twelveHour := true, useEthiopianTime := true } 10 3).minutes + 5 - 3
        < 3 - (parseInputValue { twelveHour := true, useEthiopianTime := true } 10 3).minutes :=
  ⟨by decide,
    (parseInputValue_minutes_floor { twelveHour := true, useEthiopianTime := true } 10 3
      rfl).2.2.2.2 (by decide)⟩

end EthiopianTimePicker
